import Mathlib

/-!
Verification development for the nanalytics-cvm analytics core
(`src/db.ts` schema, `src/types.ts` records, `src/analytics-service.ts`
operations).  The SQLite store is embedded as explicit lists of rows, the
service functions as pure functions from a store to an `Except` result plus
a new store.  `CURRENT_TIMESTAMP` is modelled by an explicit `now : Nat`
argument threaded into every mutating operation, and the random secret
token of `registerSite` by an explicit `secretToken` argument.  Timestamps
are `Nat` (SQLite DATETIME strings compare chronologically; only their
order and equality are ever used).

External platform/library calls used by the source are embedded as
executable Lean models on the fragment the source exercises:
the WHATWG `new URL(input[, base])` parser (with base always
`"http://placeholder"`), and `nip19.decode` from nostr-tools (bech32
decoding of `npub` identifiers).  Simplifications of those models are
documented at each definition.
-/

set_option maxRecDepth 40000

namespace Nanalytics

/-! ### Character and string helpers (JS string semantics on ASCII) -/

/-- ASCII whitespace, the fragment of JS `String.prototype.trim` whitespace
exercised by this development. -/
def isWsChar (c : Char) : Bool :=
  c = ' ' || c = '\t' || c = '\n' || c = '\r'

/-- Model of JS `String.prototype.trim` (ASCII whitespace). -/
def strTrim (s : String) : String :=
  ((s.toList.dropWhile isWsChar).reverse.dropWhile isWsChar).reverse.asString

/-- ASCII lowercasing of one character. -/
def charLower (c : Char) : Char :=
  if 65 ≤ c.toNat && c.toNat ≤ 90 then Char.ofNat (c.toNat + 32) else c

/-- ASCII uppercasing of one character. -/
def charUpper (c : Char) : Char :=
  if 97 ≤ c.toNat && c.toNat ≤ 122 then Char.ofNat (c.toNat - 32) else c

/-- Model of JS `String.prototype.toLowerCase` (ASCII). -/
def strLower (s : String) : String :=
  (s.toList.map charLower).asString

/-- Model of JS `String.prototype.startsWith`. -/
def strStartsWith (s pre : String) : Bool :=
  pre.toList.isPrefixOf s.toList

/-- Model of JS `String.prototype.includes`. -/
def containsSub (s pat : String) : Bool :=
  s.toList.tails.any (fun t => pat.toList.isPrefixOf t)

/-- True when the string begins with the character `/`. -/
def startsWithSlash (s : String) : Bool :=
  s.toList.head? = some '/'

/-! ### Input Normalizer: device types (analytics-service.ts, normalizeDeviceType) -/

/-- The fixed device-type enumeration of `types.ts`. -/
inductive DeviceType where
  | desktop
  | mobile
  | tablet
  | other
deriving DecidableEq, Repr

/-- The TEXT form a device type is stored under in SQLite. -/
def DeviceType.toStr : DeviceType → String
  | .desktop => "desktop"
  | .mobile => "mobile"
  | .tablet => "tablet"
  | .other => "other"

/-- Embedding of `normalizeDeviceType`: explicit label (lowercased, trimmed)
wins when it is one of the four values; otherwise user-agent substring
heuristics; otherwise `other`.  `none` models a JS `null`/`undefined`
argument (falsy, like the empty string). -/
def normalizeDeviceType (deviceType userAgent : Option String) : DeviceType :=
  let input := strTrim (strLower (deviceType.getD ""))
  if input = "desktop" then .desktop
  else if input = "mobile" then .mobile
  else if input = "tablet" then .tablet
  else if input = "other" then .other
  else
    let ua := strLower (userAgent.getD "")
    if containsSub ua "mobile" then .mobile
    else if containsSub ua "tablet" || containsSub ua "ipad" then .tablet
    else if ua ≠ "" then .desktop
    else .other

/-! ### Model of the WHATWG URL parser

`normalizePagePath` calls `new URL(path)` when the input starts with
`"http"` and `new URL(path, "http://placeholder")` otherwise, and reads
`.pathname`; a parse failure throws and is caught.  The model below
computes that pathname (`none` models a thrown TypeError).  It covers the
fragment the source can reach: the WHATWG input cleanup (remove leading
and trailing C0 controls or spaces, remove all ASCII tabs and newlines),
scheme detection, special versus non-special schemes, opaque paths of
non-special schemes, authority skipping with backslash-as-slash for
special schemes, relative resolution against the fixed base
`http://placeholder` (whose path is `/`).  Deliberate simplifications,
none observable by the verified properties: no dot-segment removal, no
percent-encoding of path characters, host validation reduced to
non-emptiness, and `file:` hosts treated like other special schemes. -/

/-- C0 control or space, removed by the WHATWG parser from both ends of
the input before parsing. -/
def isC0OrSpace (c : Char) : Bool := c.toNat ≤ 32

/-- ASCII tab or newline, removed by the WHATWG parser everywhere in the
input before parsing. -/
def isTabOrNewline (c : Char) : Bool := c = '\t' || c = '\n' || c = '\r'

/-- Steps 1-2 of the WHATWG URL parser: strip leading and trailing C0
controls or spaces, then remove every ASCII tab or newline. -/
def urlCleanInput (l : List Char) : List Char :=
  (((l.dropWhile isC0OrSpace).reverse.dropWhile isC0OrSpace).reverse).filter
    (fun c => !isTabOrNewline c)

/-- First character of a URL scheme per WHATWG (ASCII alpha). -/
def isSchemeStart (c : Char) : Bool :=
  (65 ≤ c.toNat && c.toNat ≤ 90) || (97 ≤ c.toNat && c.toNat ≤ 122)

/-- Subsequent characters of a URL scheme per WHATWG. -/
def isSchemeChar (c : Char) : Bool :=
  isSchemeStart c || (48 ≤ c.toNat && c.toNat ≤ 57) || c = '+' || c = '-' || c = '.'

/-- Splits `scheme:rest` off a character list, lowercasing the scheme;
`none` when the list has no leading scheme. -/
def schemeSplitAux (acc : List Char) : List Char → Option (List Char × List Char)
  | [] => none
  | c :: r =>
    if c = ':' then some (acc, r)
    else if isSchemeChar c then schemeSplitAux (acc ++ [charLower c]) r
    else none

/-- Splits a leading `scheme:` from a URL string. -/
def schemeSplit (l : List Char) : Option (List Char × List Char) :=
  match l with
  | [] => none
  | c :: r => if isSchemeStart c then schemeSplitAux [charLower c] r else none

/-- The special schemes of the WHATWG standard. -/
def specialScheme (s : List Char) : Bool :=
  s = "http".toList || s = "https".toList || s = "ws".toList ||
  s = "wss".toList || s = "ftp".toList || s = "file".toList

/-- True on `?` and `#`, the characters ending a URL path. -/
def isQF (c : Char) : Bool := c = '?' || c = '#'

/-- Takes the path portion, up to a query or fragment delimiter. -/
def takeUntilQF (l : List Char) : List Char := l.takeWhile (fun c => !isQF c)

/-- Backslashes count as slashes inside special URLs. -/
def bsToSlash (c : Char) : Char := if c = '\\' then '/' else c

/-- Slash or backslash. -/
def isSlashy (c : Char) : Bool := c = '/' || c = '\\'

/-- Characters terminating the authority of a special URL. -/
def isAuthEnd (c : Char) : Bool := c = '/' || c = '\\' || c = '?' || c = '#'

/-- The host part of an authority: everything after the last `@`. -/
def afterLastAt (l : List Char) : List Char :=
  (l.reverse.takeWhile (fun c => c ≠ '@')).reverse

/-- A special-scheme URL needs a non-empty host before any port. -/
def hostOk (auth : List Char) : Bool :=
  match afterLastAt auth with
  | [] => false
  | c :: _ => c ≠ ':'

/-- Pathname of a special URL from the remainder after the authority: the
remainder is empty or begins with one of `/ \ ? #`; an empty path becomes
`/` and backslashes become slashes. -/
def specialPathname (remainder : List Char) : List Char :=
  match takeUntilQF (remainder.map bsToSlash) with
  | [] => ['/']
  | l => l

/-- Absolute parse of `rest` (after `scheme:`) for a special scheme:
skip all leading slashes, read the authority, require a host, and return
the pathname. -/
def parseAbsoluteSpecial (rest : List Char) : Option (List Char) :=
  let r := rest.dropWhile isSlashy
  let auth := r.takeWhile (fun c => !isAuthEnd c)
  if hostOk auth then some (specialPathname (r.dropWhile (fun c => !isAuthEnd c)))
  else none

/-- Relative resolution against the base `http://placeholder` (path `/`).
Also used for inputs written `http:...` with that base, per the WHATWG
special-relative-or-authority rule. -/
def parseRelativeSpecial (l0 : List Char) : Option (List Char) :=
  let l := l0.map bsToSlash
  match l with
  | [] => some ['/']
  | '/' :: '/' :: _ => parseAbsoluteSpecial l
  | '/' :: r => some ('/' :: takeUntilQF r)
  | '?' :: _ => some ['/']
  | '#' :: _ => some ['/']
  | _ => some ('/' :: takeUntilQF l)

/-- Parse of `rest` (after `scheme:`) for a non-special scheme: either an
authority form `//host/path` (host may be empty) or an opaque path taken
verbatim up to `?`/`#`.  Never fails. -/
def parseNonSpecial (rest : List Char) : Option (List Char) :=
  match rest with
  | '/' :: '/' :: r =>
    some (takeUntilQF (r.dropWhile (fun c => !(c = '/' || c = '?' || c = '#'))))
  | _ => some (takeUntilQF rest)

/-- Pathname returned by `new URL(input)` (when `withBase = false`) or
`new URL(input, "http://placeholder")` (when `withBase = true`); `none`
models the constructor throwing. -/
def urlPathname (input : String) (withBase : Bool) : Option String :=
  match schemeSplit (urlCleanInput input.toList) with
  | some (scheme, rest) =>
    if specialScheme scheme then
      if withBase && scheme = "http".toList then
        (parseRelativeSpecial rest).map List.asString
      else
        (parseAbsoluteSpecial rest).map List.asString
    else
      (parseNonSpecial rest).map List.asString
  | none =>
    if withBase then (parseRelativeSpecial (urlCleanInput input.toList)).map List.asString
    else none

/-- An input whose URL parse (after the WHATWG input cleanup) yields an
opaque path (non-special scheme, no `//` authority): the only inputs for
which `new URL(...).pathname` need not start with `/`. -/
def hasOpaquePath (p : String) : Bool :=
  match schemeSplit (urlCleanInput p.toList) with
  | some (scheme, rest) =>
    if specialScheme scheme then false
    else
      match rest with
      | '/' :: '/' :: _ => false
      | _ => true
  | none => false

/-- Lift of `hasOpaquePath` to the optional argument of `normalizePagePath`. -/
def hasOpaquePathOpt : Option String → Bool
  | none => false
  | some s => hasOpaquePath s

/-! ### Input Normalizer: page paths (analytics-service.ts, normalizePagePath) -/

/-- Embedding of `normalizePagePath`: falsy input gives `/`; an input
starting with `http` is parsed as an absolute URL, anything else against
the base `http://placeholder`; the parsed pathname is returned (`/` when
empty); a parse failure falls back to prefixing `/` when absent. -/
def normalizePagePath (path : Option String) : String :=
  match path with
  | none => "/"
  | some p =>
    if p = "" then "/"
    else
      match (if strStartsWith p "http" then urlPathname p false else urlPathname p true) with
      | some pn => if pn = "" then "/" else pn
      | none => if strStartsWith p "/" then p else "/" ++ p

/-! ### Identity Normalizer (analytics-service.ts, normalizeHexPubkey)

The source first matches the 64-hex-digit regular expression and otherwise
calls `nip19.decode` from nostr-tools, accepting only the `npub` result.
`nip19.decode` is bech32 decoding: the model below implements bech32
(charset lookup, checksum polymod with constant 1, 5-bit-to-8-bit
regrouping with strict padding) exactly as the scure bech32 decoder used
by nostr-tools does, returning the prefix and the lowercase hex payload. -/

/-- The bech32 data character set. -/
def bech32Charset : List Char := "qpzry9x8gf2tvdw0s3jn54khce6mua7l".toList

/-- Index of a character in a list, used for the bech32 charset. -/
def charIndex : List Char → Char → Option Nat
  | [], _ => none
  | a :: r, c => if a = c then some 0 else (charIndex r c).map (· + 1)

/-- One step of the bech32 checksum polymod. -/
def bech32PolymodStep (chk v : Nat) : Nat :=
  let b := chk / 0x2000000
  let c1 := Nat.xor ((chk % 0x2000000) * 32) v
  let c2 := if b / 1 % 2 = 1 then Nat.xor c1 0x3b6a57b2 else c1
  let c3 := if b / 2 % 2 = 1 then Nat.xor c2 0x26508e6d else c2
  let c4 := if b / 4 % 2 = 1 then Nat.xor c3 0x1ea119fa else c3
  let c5 := if b / 8 % 2 = 1 then Nat.xor c4 0x3d4233dd else c4
  if b / 16 % 2 = 1 then Nat.xor c5 0x2a1462b3 else c5

/-- The bech32 checksum polymod over a list of 5-bit values. -/
def bech32Polymod (values : List Nat) : Nat :=
  values.foldl bech32PolymodStep 1

/-- Expansion of the human-readable part for checksum verification. -/
def bech32HrpExpand (hrp : List Char) : List Nat :=
  hrp.map (fun c => c.toNat / 32) ++ [0] ++ hrp.map (fun c => c.toNat % 32)

/-- Maps bech32 data characters to their 5-bit values; `none` on an
invalid character. -/
def mapCharset : List Char → Option (List Nat)
  | [] => some []
  | c :: r =>
    match charIndex bech32Charset c, mapCharset r with
    | some v, some vs => some (v :: vs)
    | _, _ => none

/-- One step of 5-bit-to-8-bit regrouping: `(carry, bits, bytes so far)`. -/
def fromWordsStep (st : Nat × Nat × List Nat) (v : Nat) : Nat × Nat × List Nat :=
  let carry := st.1 * 32 + v
  let bits := st.2.1 + 5
  if 8 ≤ bits then (carry, bits - 8, st.2.2 ++ [carry / 2 ^ (bits - 8) % 256])
  else (carry, bits, st.2.2)

/-- Regroups 5-bit values into bytes with the strict (`pad = false`)
rules of the scure bech32 `fromWords`: fails on 5 or more leftover bits or
on non-zero padding. -/
def fromWords (vals : List Nat) : Option (List Nat) :=
  let st := vals.foldl fromWordsStep (0, 0, [])
  if 5 ≤ st.2.1 then none
  else if st.1 % 2 ^ st.2.1 ≠ 0 then none
  else some st.2.2

/-- Splits a bech32 string at its last `1` separator into the
human-readable part and the data part. -/
def splitLastOne (l : List Char) : Option (List Char × List Char) :=
  if l.contains '1' then
    let dataRev := l.reverse.takeWhile (fun c => c ≠ '1')
    some ((l.take (l.length - dataRev.length - 1)), dataRev.reverse)
  else none

/-- Lowercase hex digit for a value below 16. -/
def hexDigitChar (n : Nat) : Char :=
  if n < 10 then Char.ofNat (48 + n) else Char.ofNat (87 + n)

/-- Lowercase hex encoding of a byte list, as nostr-tools `bytesToHex`. -/
def bytesToHexStr (bs : List Nat) : String :=
  (bs.foldr (fun b acc => hexDigitChar (b / 16) :: hexDigitChar (b % 16) :: acc) []).asString

/-- Model of nostr-tools `nip19.decode` restricted to what
`normalizeHexPubkey` consumes: bech32-decodes the string and returns the
prefix together with the lowercase hex payload; `none` models a throw
(mixed case, bad separator, bad charset, bad checksum, bad padding).
The byte payload of prefixes other than `npub` is irrelevant downstream,
so TLV parsing of the other prefixes is not modelled. -/
def nip19Decode (s : String) : Option (String × String) :=
  let l := s.toList
  let lower := l.map charLower
  let upper := l.map charUpper
  if l ≠ lower ∧ l ≠ upper then none
  else if l.length < 8 ∨ 5000 < l.length then none
  else
    match splitLastOne lower with
    | none => none
    | some (hrp, data) =>
      if hrp = [] then none
      else if data.length < 6 then none
      else
        match mapCharset data with
        | none => none
        | some vals =>
          if bech32Polymod (bech32HrpExpand hrp ++ vals) = 1 then
            match fromWords (vals.take (vals.length - 6)) with
            | some bytes => some (hrp.asString, bytesToHexStr bytes)
            | none => none
          else none

/-- Test of the case-insensitive 64-hex-digit regular expression. -/
def isHexChar (c : Char) : Bool :=
  (48 ≤ c.toNat && c.toNat ≤ 57) || (97 ≤ c.toNat && c.toNat ≤ 102) ||
  (65 ≤ c.toNat && c.toNat ≤ 70)

/-- Matches `/^[0-9a-f]{64}$/i`. -/
def isHex64 (s : String) : Bool :=
  s.toList.length == 64 && s.toList.all isHexChar

/-- Embedding of `normalizeHexPubkey`: falsy input (absent or empty) gives
`none`; a trimmed 64-hex-digit value is lowercased; otherwise an `npub`
bech32 decoding gives the hex key; anything else is unrecognized. -/
def normalizeHexPubkey (input : Option String) : Option String :=
  match input with
  | none => none
  | some i =>
    if i = "" then none
    else
      let value := strTrim i
      if isHex64 value then some (strLower value)
      else
        match nip19Decode value with
        | some (t, data) => if t = "npub" then some (strLower data) else none
        | none => none

/-! ### Data model (db.ts schema, types.ts records)

Rows of the three tables.  `owner_npub` and `name` are nullable TEXT
columns, hence `Option String`; `nostr_event_id` is nullable with a
unique index (`idx_visits_event`).  The `visits` and `page_stats` `id`
autoincrement columns are never read by the service and are omitted;
`sites.id` is kept because the other tables reference it.  `created_at`
and `updated_at` are kept on sites (`updated_at` is written by updates);
`owner_signature` is always written as NULL and never read. -/

structure SiteRec where
  id : Nat
  site_uuid : String
  name : Option String
  owner_npub : Option String
  secret_token : String
  created_at : Nat
  updated_at : Nat
deriving DecidableEq, Repr

structure VisitRec where
  site_id : Nat
  page_path : String
  device_type : DeviceType
  nostr_event_id : Option String
  visited_at : Nat
deriving DecidableEq, Repr

structure PageStatRec where
  site_id : Nat
  page_path : String
  device_type : DeviceType
  visit_count : Nat
  last_seen : Nat
deriving DecidableEq, Repr

/-- The persistent store: the three tables plus the next autoincrement
value for `sites.id`. -/
structure Store where
  sites : List SiteRec
  visits : List VisitRec
  page_stats : List PageStatRec
  nextSiteId : Nat
deriving DecidableEq, Repr

/-- The store right after `initializeDatabase` on a fresh file. -/
def emptyStore : Store := ⟨[], [], [], 1⟩

/-- Embedding of `findSite`: first row whose `site_uuid` matches. -/
def findSite (s : Store) (siteUuid : String) : Option SiteRec :=
  s.sites.find? (fun site => decide (site.site_uuid = siteUuid))

/-- JS truthiness of a nullable string: not NULL and not empty. -/
def truthyOpt : Option String → Bool
  | none => false
  | some s => s ≠ ""

/-! ### Site Registry (analytics-service.ts, registerSite) -/

structure RegisterParams where
  siteUuid : String
  name : Option String
  ownerNpub : String
deriving DecidableEq, Repr

/-- The row update of `registerSite` on an existing site:
`name = COALESCE(?, name)`, `owner_npub = COALESCE(?, owner_npub)` — the
bound owner is a required string (never SQL NULL), so the second COALESCE
always takes the incoming value — and a refreshed update timestamp, on
every row with the registered uuid. -/
def registerUpdateRow (p : RegisterParams) (now : Nat) (q : SiteRec) : SiteRec :=
  if q.site_uuid = p.siteUuid then
    { q with
      name := match p.name with | some n => some n | none => q.name,
      owner_npub := some p.ownerNpub,
      updated_at := now }
  else q

/-- Embedding of `registerSite`.  On an existing site it errors when a
non-empty incoming owner conflicts with a truthy stored owner, and
otherwise applies `registerUpdateRow`.  On a new uuid it inserts a row
with a fresh id and the given secret token.  Both branches re-resolve and
return the row, mirroring `findSite(siteUuid)!` (whose impossible-failure
is an error here). -/
def registerSite (secretToken : String) (now : Nat) (p : RegisterParams) (s : Store) :
    Except String (SiteRec × Store) :=
  match findSite s p.siteUuid with
  | some existing =>
    if p.ownerNpub ≠ "" ∧ truthyOpt existing.owner_npub ∧ existing.owner_npub ≠ some p.ownerNpub then
      .error "Owner npub does not match existing site owner"
    else
      match findSite { s with sites := s.sites.map (registerUpdateRow p now) } p.siteUuid with
      | some r => .ok (r, { s with sites := s.sites.map (registerUpdateRow p now) })
      | none => .error "Site not found"
  | none =>
    match findSite { s with
        sites := s.sites ++ [⟨s.nextSiteId, p.siteUuid, p.name, some p.ownerNpub, secretToken, now, now⟩],
        nextSiteId := s.nextSiteId + 1 } p.siteUuid with
    | some r => .ok (r, { s with
        sites := s.sites ++ [⟨s.nextSiteId, p.siteUuid, p.name, some p.ownerNpub, secretToken, now, now⟩],
        nextSiteId := s.nextSiteId + 1 })
    | none => .error "Site not found"

/-! ### Visit Recorder (analytics-service.ts, recordVisit) -/

structure VisitParams where
  siteUuid : String
  pagePath : Option String
  deviceType : Option String
  userAgent : Option String
  nostrEventId : Option String
deriving DecidableEq, Repr

/-- Result shape of `recordVisit`. -/
structure VisitResult where
  siteUuid : String
  pagePath : String
  deviceType : DeviceType
  visits : Nat
  lastSeen : Option Nat
deriving DecidableEq, Repr

/-- The `(params.nostrEventId || "").trim() || null` computation. -/
def trimEventId (x : Option String) : Option String :=
  let t := strTrim (x.getD "")
  if t = "" then none else some t

/-- The `(site_id, page_path, device_type)` key of the `page_stats`
unique constraint. -/
def tripleMatches (sid : Nat) (path : String) (dev : DeviceType) (ps : PageStatRec) : Bool :=
  decide (ps.site_id = sid ∧ ps.page_path = path ∧ ps.device_type = dev)

/-- The `DO UPDATE` arm of the `page_stats` upsert: increment the counter
and refresh `last_seen` on the row of the given triple. -/
def bumpStat (sid : Nat) (path : String) (dev : DeviceType) (now : Nat) (q : PageStatRec) : PageStatRec :=
  if tripleMatches sid path dev q then
    { q with visit_count := q.visit_count + 1, last_seen := now }
  else q

/-- The duplicate test of the `INSERT OR IGNORE` into `visits`: skipped
exactly when the trimmed external event id is present and some stored
visit already carries it (the unique index on `nostr_event_id`; NULLs
never conflict). -/
def isDupEvent (s : Store) : Option String → Bool
  | some e => s.visits.any (fun v => decide (v.nostr_event_id = some e))
  | none => false

/-- Embedding of `recordVisit`.  On a duplicate external event id the
current `page_stats` row of the normalized triple is returned unchanged
(zero/null placeholder when absent).  Otherwise the visit row is inserted
and the `page_stats` row is upserted: created with count 1, or
incremented with `last_seen = now`, returning the resulting count, all in
one transaction. -/
def recordVisit (now : Nat) (p : VisitParams) (s : Store) :
    Except String (VisitResult × Store) :=
  match findSite s p.siteUuid with
  | none => .error "Site not found"
  | some site =>
    let pagePath := normalizePagePath p.pagePath
    let deviceType := normalizeDeviceType p.deviceType p.userAgent
    let nostrEventId := trimEventId p.nostrEventId
    if isDupEvent s nostrEventId then
      match s.page_stats.find? (tripleMatches site.id pagePath deviceType) with
      | some ps => .ok (⟨site.site_uuid, pagePath, deviceType, ps.visit_count, some ps.last_seen⟩, s)
      | none => .ok (⟨site.site_uuid, pagePath, deviceType, 0, none⟩, s)
    else
      match s.page_stats.find? (tripleMatches site.id pagePath deviceType) with
      | some ps =>
        .ok (⟨site.site_uuid, pagePath, deviceType, ps.visit_count + 1, some now⟩,
          { s with
            visits := s.visits ++ [⟨site.id, pagePath, deviceType, nostrEventId, now⟩],
            page_stats := s.page_stats.map (bumpStat site.id pagePath deviceType now) })
      | none =>
        .ok (⟨site.site_uuid, pagePath, deviceType, 1, some now⟩,
          { s with
            visits := s.visits ++ [⟨site.id, pagePath, deviceType, nostrEventId, now⟩],
            page_stats := s.page_stats ++ [⟨site.id, pagePath, deviceType, 1, now⟩] })

/-! ### Stats Aggregator (analytics-service.ts, getSiteStats)

The `page_stats` rows of the site are read `ORDER BY page_path,
device_type` (SQLite BINARY collation: codepoint order, modelled by
`charListLt` on the stored strings) and folded through a JS `Map` keyed
by page path, preserving insertion order.  The daily series
(`visitsByDay`, `pageVisitsByDay`) are date-bucketed reshapes of raw
visits that no verified property mentions; they are omitted from the
result record. -/

/-- Lexicographic codepoint order on character lists (SQLite BINARY
collation on ASCII text). -/
def charListLt : List Char → List Char → Bool
  | [], [] => false
  | [], _ :: _ => true
  | _ :: _, [] => false
  | a :: as, b :: bs =>
    if a.toNat < b.toNat then true
    else if b.toNat < a.toNat then false
    else charListLt as bs

/-- The `ORDER BY page_path, device_type` comparison. -/
def rowLE (a b : PageStatRec) : Bool :=
  charListLt a.page_path.toList b.page_path.toList ||
    (a.page_path == b.page_path &&
      (charListLt a.device_type.toStr.toList b.device_type.toStr.toList ||
        a.device_type.toStr == b.device_type.toStr))

/-- Insertion step of the sort implementing the ORDER BY. -/
def insertRow (a : PageStatRec) : List PageStatRec → List PageStatRec
  | [] => [a]
  | b :: l => if rowLE a b then a :: b :: l else b :: insertRow a l

/-- Insertion sort implementing the ORDER BY (the row order is strict on
the sorted keys, so stability is irrelevant). -/
def sortRows : List PageStatRec → List PageStatRec
  | [] => []
  | a :: l => insertRow a (sortRows l)

/-- One aggregated per-page entry (`PageStats` of types.ts), with the
four device counters inlined. -/
structure PageStatsEntry where
  page : String
  totalVisits : Nat
  desktop : Nat
  mobile : Nat
  tablet : Nat
  other : Nat
  lastSeen : Option Nat
deriving DecidableEq, Repr

/-- Writes one device counter, the `existing.devices[row.device_type] =
row.visit_count` assignment. -/
def setDevice (e : PageStatsEntry) : DeviceType → Nat → PageStatsEntry
  | .desktop, n => { e with desktop := n }
  | .mobile, n => { e with mobile := n }
  | .tablet, n => { e with tablet := n }
  | .other, n => { e with other := n }

/-- JS `Map.get` on the insertion-ordered page map. -/
def mapGet (m : List PageStatsEntry) (k : String) : Option PageStatsEntry :=
  m.find? (fun e => decide (e.page = k))

/-- JS `Map.set` on the insertion-ordered page map: update in place when
the key exists, append otherwise. -/
def mapSet (m : List PageStatsEntry) (e : PageStatsEntry) : List PageStatsEntry :=
  if m.any (fun x => decide (x.page = e.page)) then
    m.map (fun x => if x.page = e.page then e else x)
  else m ++ [e]

/-- The body of the grouping loop over one `page_stats` row: add the count
into the page total and the grand total, overwrite the device counter and
the per-page `lastSeen` with this row's values. -/
def applyRow (acc : List PageStatsEntry × Nat) (row : PageStatRec) : List PageStatsEntry × Nat :=
  let e0 :=
    match mapGet acc.1 row.page_path with
    | some e => e
    | none => ⟨row.page_path, 0, 0, 0, 0, 0, none⟩
  let e1 := { e0 with
    totalVisits := e0.totalVisits + row.visit_count,
    lastSeen := some row.last_seen }
  let e2 := setDevice e1 row.device_type row.visit_count
  (mapSet acc.1 e2, acc.2 + row.visit_count)

/-- Result of `getSiteStats` (daily series omitted, see above). -/
structure SiteStats where
  uuid : String
  name : Option String
  ownerNpub : Option String
  totalsVisits : Nat
  totalsPages : Nat
  pages : List PageStatsEntry
deriving DecidableEq, Repr

/-- Embedding of `getSiteStats`: resolve the site, apply the raw-equality
owner check (`site.owner_npub && site.owner_npub !== npub`), then group
the ordered `page_stats` rows per page. -/
def getSiteStats (s : Store) (siteUuid npub : String) : Except String SiteStats :=
  match findSite s siteUuid with
  | none => .error "Site not found"
  | some site =>
    if truthyOpt site.owner_npub ∧ site.owner_npub ≠ some npub then
      .error "Owner npub mismatch"
    else
      let rows := sortRows (s.page_stats.filter (fun ps => decide (ps.site_id = site.id)))
      let acc := rows.foldl applyRow ([], 0)
      .ok ⟨site.site_uuid, site.name, site.owner_npub, acc.2, acc.1.length, acc.1⟩

/-! ### Ownership-guarded mutations (updateSiteByOwner, deleteSiteByOwner) -/

/-- The `UPDATE sites SET name = ?, updated_at = CURRENT_TIMESTAMP` row
update of `updateSiteByOwner`. -/
def updateNameRow (siteUuid : String) (now : Nat) (name : Option String) (q : SiteRec) : SiteRec :=
  if q.site_uuid = siteUuid then { q with name := name, updated_at := now } else q

/-- Embedding of `updateSiteByOwner`.  `nameProvided` models the JS
`"name" in params` test; `name` is the provided value (possibly null).
The guard is the source's `if (!ownerHex || !callerHex)` falsiness test —
rejecting a normalization result that is null OR the empty string
(`truthyOpt` is exactly JS string-or-null truthiness) — followed by the
strict comparison; then the name (when provided) and the update timestamp
are written and the row re-resolved, else the row is returned
untouched. -/
def updateSiteByOwner (now : Nat) (siteUuid callerPubkey : String)
    (nameProvided : Bool) (name : Option String) (s : Store) :
    Except String (SiteRec × Store) :=
  match findSite s siteUuid with
  | none => .error "Site not found"
  | some site =>
    let ownerHex := normalizeHexPubkey site.owner_npub
    let callerHex := normalizeHexPubkey (some callerPubkey)
    if truthyOpt ownerHex = false ∨ truthyOpt callerHex = false then
      .error "Unable to validate owner pubkey"
    else if ownerHex ≠ callerHex then
      .error "Caller pubkey does not match site owner"
    else if nameProvided then
      match findSite { s with sites := s.sites.map (updateNameRow siteUuid now name) } siteUuid with
      | some r => .ok (r, { s with sites := s.sites.map (updateNameRow siteUuid now name) })
      | none => .error "Site not found"
    else .ok (site, s)

/-- Result of `deleteSiteByOwner`. -/
structure DeleteResult where
  siteUuid : String
  deleted : Bool
deriving DecidableEq, Repr

/-- Embedding of `deleteSiteByOwner`: same guard as the update (the JS
falsiness test rejects a null or empty normalization result, then the
strict comparison), then `DELETE FROM sites WHERE id = ?` with the
`ON DELETE CASCADE` of the `visits` and `page_stats` foreign keys. -/
def deleteSiteByOwner (siteUuid callerPubkey : String) (s : Store) :
    Except String (DeleteResult × Store) :=
  match findSite s siteUuid with
  | none => .error "Site not found"
  | some site =>
    let ownerHex := normalizeHexPubkey site.owner_npub
    let callerHex := normalizeHexPubkey (some callerPubkey)
    if truthyOpt ownerHex = false ∨ truthyOpt callerHex = false then
      .error "Unable to validate owner pubkey"
    else if ownerHex ≠ callerHex then
      .error "Caller pubkey does not match site owner"
    else
      .ok (⟨siteUuid, s.sites.any (fun q => decide (q.id = site.id))⟩,
        { s with
          sites := s.sites.filter (fun q => decide (q.id ≠ site.id)),
          visits := s.visits.filter (fun v => decide (v.site_id ≠ site.id)),
          page_stats := s.page_stats.filter (fun ps => decide (ps.site_id ≠ site.id)) })

/-! ### Reachable stores

A store is reachable when it arises from the fresh database by a sequence
of successful core write operations (reads do not change the store, and a
failed operation throws inside its transaction, leaving the store as it
was). -/

inductive Reachable : Store → Prop
  | empty : Reachable emptyStore
  | register {s s2 : Store} {tok : String} {now : Nat} {p : RegisterParams} {r : SiteRec} :
      Reachable s → registerSite tok now p s = .ok (r, s2) → Reachable s2
  | visit {s s2 : Store} {now : Nat} {p : VisitParams} {r : VisitResult} :
      Reachable s → recordVisit now p s = .ok (r, s2) → Reachable s2
  | update {s s2 : Store} {now : Nat} {uuid caller : String} {np : Bool}
      {nm : Option String} {r : SiteRec} :
      Reachable s → updateSiteByOwner now uuid caller np nm s = .ok (r, s2) → Reachable s2
  | delete {s s2 : Store} {uuid caller : String} {r : DeleteResult} :
      Reachable s → deleteSiteByOwner uuid caller s = .ok (r, s2) → Reachable s2

/-! ### Store well-formedness

The invariant tying the derived `page_stats` counters to the raw `visits`
history, maintained by every core write operation. -/

/-- The visits carrying one `(site, page, device)` triple. -/
def visitKeyB (sid : Nat) (path : String) (dev : DeviceType) (v : VisitRec) : Bool :=
  decide (v.site_id = sid ∧ v.page_path = path ∧ v.device_type = dev)

/-- Number of stored visit rows of one `(site, page, device)` triple. -/
def visitCountOf (s : Store) (sid : Nat) (path : String) (dev : DeviceType) : Nat :=
  s.visits.countP (visitKeyB sid path dev)

/-- Two `page_stats` rows with different unique keys. -/
def diffTriple (a b : PageStatRec) : Prop :=
  ¬ (a.site_id = b.site_id ∧ a.page_path = b.page_path ∧ a.device_type = b.device_type)

/-- Well-formedness of a store: fresh autoincrement ids, referential
integrity of `visits` and `page_stats` into `sites`, uniqueness of the
`page_stats` key, every counter equal to the number of stored visit rows
of its triple, and every visit covered by a counter row. -/
structure WF (s : Store) : Prop where
  ids_lt : ∀ site ∈ s.sites, site.id < s.nextSiteId
  visits_ref : ∀ v ∈ s.visits, ∃ site ∈ s.sites, site.id = v.site_id
  stats_ref : ∀ ps ∈ s.page_stats, ∃ site ∈ s.sites, site.id = ps.site_id
  triples_nodup : s.page_stats.Pairwise diffTriple
  counts : ∀ ps ∈ s.page_stats,
    ps.visit_count = visitCountOf s ps.site_id ps.page_path ps.device_type
  covered : ∀ v ∈ s.visits, ∃ ps ∈ s.page_stats,
    ps.site_id = v.site_id ∧ ps.page_path = v.page_path ∧ ps.device_type = v.device_type

theorem wf_empty : WF emptyStore := by
  constructor <;> simp [emptyStore]

/-- A store keeps its well-formedness under any rewrite of site rows that
preserves ids (name/owner/timestamp updates). -/
theorem wf_of_sites_map {s : Store} (hwf : WF s) (f : SiteRec → SiteRec)
    (hid : ∀ q, (f q).id = q.id) :
    WF { s with sites := s.sites.map f } := by
  constructor
  · intro site hsite
    simp only [List.mem_map] at hsite
    obtain ⟨q, hq, hmap⟩ := hsite
    have hq2 : site.id = q.id := by rw [← hmap]; exact hid q
    rw [hq2]
    exact hwf.ids_lt q hq
  · intro v hv
    obtain ⟨site, hsite, hids⟩ := hwf.visits_ref v hv
    exact ⟨f site, List.mem_map_of_mem f hsite, by rw [hid site]; exact hids⟩
  · intro ps hps
    obtain ⟨site, hsite, hids⟩ := hwf.stats_ref ps hps
    exact ⟨f site, List.mem_map_of_mem f hsite, by rw [hid site]; exact hids⟩
  · exact hwf.triples_nodup
  · exact hwf.counts
  · exact hwf.covered

/-- A store keeps its well-formedness when a site row with the fresh
autoincrement id is appended. -/
theorem wf_of_new_site {s : Store} (hwf : WF s) (site : SiteRec)
    (hid : site.id = s.nextSiteId) :
    WF { s with sites := s.sites ++ [site], nextSiteId := s.nextSiteId + 1 } := by
  constructor
  · intro q hq
    rcases List.mem_append.mp hq with hold | hnew
    · exact Nat.lt_succ_of_lt (hwf.ids_lt q hold)
    · simp only [List.mem_singleton] at hnew
      subst hnew
      dsimp only
      omega
  · intro v hv
    obtain ⟨q, hq, hids⟩ := hwf.visits_ref v hv
    exact ⟨q, List.mem_append_left _ hq, hids⟩
  · intro ps hps
    obtain ⟨q, hq, hids⟩ := hwf.stats_ref ps hps
    exact ⟨q, List.mem_append_left _ hq, hids⟩
  · exact hwf.triples_nodup
  · exact hwf.counts
  · exact hwf.covered

theorem wf_register {s s2 : Store} {tok : String} {now : Nat} {p : RegisterParams}
    {r : SiteRec} (hwf : WF s) (h : registerSite tok now p s = .ok (r, s2)) : WF s2 := by
  unfold registerSite at h
  rcases hfind : findSite s p.siteUuid with _ | existing <;> rw [hfind] at h <;> dsimp only at h
  · split at h
    · injection h with h
      injection h with hr hs2
      exact hs2 ▸ wf_of_new_site hwf _ rfl
    · exact absurd h (by simp)
  · split at h
    · exact absurd h (by simp)
    · split at h
      · injection h with h
        injection h with hr hs2
        refine hs2 ▸ wf_of_sites_map hwf _ ?_
        intro q
        unfold registerUpdateRow
        split <;> rfl
      · exact absurd h (by simp)

theorem bumpStat_site_id (sid : Nat) (pp : String) (dv : DeviceType) (now : Nat)
    (q : PageStatRec) : (bumpStat sid pp dv now q).site_id = q.site_id := by
  unfold bumpStat
  split <;> rfl

theorem bumpStat_page_path (sid : Nat) (pp : String) (dv : DeviceType) (now : Nat)
    (q : PageStatRec) : (bumpStat sid pp dv now q).page_path = q.page_path := by
  unfold bumpStat
  split <;> rfl

theorem bumpStat_device_type (sid : Nat) (pp : String) (dv : DeviceType) (now : Nat)
    (q : PageStatRec) : (bumpStat sid pp dv now q).device_type = q.device_type := by
  unfold bumpStat
  split <;> rfl

theorem tripleMatches_iff (sid : Nat) (pp : String) (dv : DeviceType) (q : PageStatRec) :
    tripleMatches sid pp dv q = true ↔
      q.site_id = sid ∧ q.page_path = pp ∧ q.device_type = dv := by
  simp [tripleMatches]

theorem visitKeyB_iff (sid : Nat) (pp : String) (dv : DeviceType) (v : VisitRec) :
    visitKeyB sid pp dv v = true ↔
      v.site_id = sid ∧ v.page_path = pp ∧ v.device_type = dv := by
  simp [visitKeyB]

theorem wf_visit {s s2 : Store} {now : Nat} {p : VisitParams} {r : VisitResult}
    (hwf : WF s) (h : recordVisit now p s = .ok (r, s2)) : WF s2 := by
  unfold recordVisit at h
  rcases hfind : findSite s p.siteUuid with _ | site <;> rw [hfind] at h <;> dsimp only at h
  · exact absurd h (by simp)
  · have hsite : site ∈ s.sites := List.mem_of_find?_eq_some hfind
    split at h
    · split at h <;>
        (injection h with h; injection h with hr hs2; exact hs2 ▸ hwf)
    · rename_i hdup
      split at h
      · rename_i ps0 hfound
        injection h with h
        injection h with hr hs2
        subst hs2
        have hkey : ∀ q : PageStatRec,
            (bumpStat site.id (normalizePagePath p.pagePath)
              (normalizeDeviceType p.deviceType p.userAgent) now q).site_id = q.site_id ∧
            (bumpStat site.id (normalizePagePath p.pagePath)
              (normalizeDeviceType p.deviceType p.userAgent) now q).page_path = q.page_path ∧
            (bumpStat site.id (normalizePagePath p.pagePath)
              (normalizeDeviceType p.deviceType p.userAgent) now q).device_type = q.device_type :=
          fun q => ⟨bumpStat_site_id _ _ _ _ q, bumpStat_page_path _ _ _ _ q,
            bumpStat_device_type _ _ _ _ q⟩
        constructor
        · exact hwf.ids_lt
        · intro v hv
          rcases List.mem_append.mp hv with hold | hnew
          · exact hwf.visits_ref v hold
          · simp only [List.mem_singleton] at hnew
            subst hnew
            exact ⟨site, hsite, rfl⟩
        · intro x hx
          simp only [List.mem_map] at hx
          obtain ⟨q, hq, hxq⟩ := hx
          obtain ⟨site2, hsite2, hids⟩ := hwf.stats_ref q hq
          refine ⟨site2, hsite2, ?_⟩
          rw [← hxq, (hkey q).1]
          exact hids
        · refine (List.pairwise_map).mpr (hwf.triples_nodup.imp ?_)
          intro a b hab hcon
          exact hab ⟨by rw [← (hkey a).1, ← (hkey b).1]; exact hcon.1,
            by rw [← (hkey a).2.1, ← (hkey b).2.1]; exact hcon.2.1,
            by rw [← (hkey a).2.2, ← (hkey b).2.2]; exact hcon.2.2⟩
        · intro x hx
          simp only [List.mem_map] at hx
          obtain ⟨q, hq, hxq⟩ := hx
          have hcount := hwf.counts q hq
          subst hxq
          rw [(hkey q).1, (hkey q).2.1, (hkey q).2.2]
          unfold visitCountOf
          dsimp only
          rw [List.countP_append]
          by_cases hb : tripleMatches site.id (normalizePagePath p.pagePath)
            (normalizeDeviceType p.deviceType p.userAgent) q = true
          · obtain ⟨h1, h2, h3⟩ := (tripleMatches_iff _ _ _ _).mp hb
            have hone : List.countP (visitKeyB q.site_id q.page_path q.device_type)
                [⟨site.id, normalizePagePath p.pagePath,
                  normalizeDeviceType p.deviceType p.userAgent, trimEventId p.nostrEventId, now⟩] = 1 := by
              simp [List.countP_cons, visitKeyB_iff, h1, h2, h3]
            rw [hone]
            have hbump : (bumpStat site.id (normalizePagePath p.pagePath)
                (normalizeDeviceType p.deviceType p.userAgent) now q).visit_count =
                q.visit_count + 1 := by
              unfold bumpStat
              rw [if_pos hb]
            rw [hbump, hcount]
            rfl
          · have hzero : List.countP (visitKeyB q.site_id q.page_path q.device_type)
                [⟨site.id, normalizePagePath p.pagePath,
                  normalizeDeviceType p.deviceType p.userAgent, trimEventId p.nostrEventId, now⟩] = 0 := by
              simp only [List.countP_cons, List.countP_nil, visitKeyB]
              rw [tripleMatches_iff] at hb
              simp only [decide_eq_true_eq]
              have : ¬ (site.id = q.site_id ∧ normalizePagePath p.pagePath = q.page_path ∧
                  normalizeDeviceType p.deviceType p.userAgent = q.device_type) := by
                intro hcon
                exact hb ⟨hcon.1.symm, hcon.2.1.symm, hcon.2.2.symm⟩
              simp [this]
            rw [hzero]
            have hbump : (bumpStat site.id (normalizePagePath p.pagePath)
                (normalizeDeviceType p.deviceType p.userAgent) now q).visit_count =
                q.visit_count := by
              unfold bumpStat
              rw [if_neg hb]
            rw [hbump, hcount]
            rfl
        · intro v hv
          rcases List.mem_append.mp hv with hold | hnew
          · obtain ⟨q, hq, h1, h2, h3⟩ := hwf.covered v hold
            refine ⟨bumpStat site.id (normalizePagePath p.pagePath)
              (normalizeDeviceType p.deviceType p.userAgent) now q,
              List.mem_map_of_mem _ hq, ?_, ?_, ?_⟩
            · rw [(hkey q).1]; exact h1
            · rw [(hkey q).2.1]; exact h2
            · rw [(hkey q).2.2]; exact h3
          · simp only [List.mem_singleton] at hnew
            subst hnew
            have hps0 : ps0 ∈ s.page_stats := List.mem_of_find?_eq_some hfound
            have hmatch := List.find?_some hfound
            obtain ⟨h1, h2, h3⟩ := (tripleMatches_iff _ _ _ _).mp hmatch
            refine ⟨bumpStat site.id (normalizePagePath p.pagePath)
              (normalizeDeviceType p.deviceType p.userAgent) now ps0,
              List.mem_map_of_mem _ hps0, ?_, ?_, ?_⟩
            · rw [(hkey ps0).1, h1]
            · rw [(hkey ps0).2.1, h2]
            · rw [(hkey ps0).2.2, h3]
      · rename_i hnone
        injection h with h
        injection h with hr hs2
        subst hs2
        have hnomatch : ∀ q ∈ s.page_stats,
            ¬ tripleMatches site.id (normalizePagePath p.pagePath)
              (normalizeDeviceType p.deviceType p.userAgent) q = true :=
          List.find?_eq_none.mp hnone
        constructor
        · exact hwf.ids_lt
        · intro v hv
          rcases List.mem_append.mp hv with hold | hnew
          · exact hwf.visits_ref v hold
          · simp only [List.mem_singleton] at hnew
            subst hnew
            exact ⟨site, hsite, rfl⟩
        · intro x hx
          rcases List.mem_append.mp hx with hold | hnew
          · obtain ⟨site2, hsite2, hids⟩ := hwf.stats_ref x hold
            exact ⟨site2, hsite2, hids⟩
          · simp only [List.mem_singleton] at hnew
            subst hnew
            exact ⟨site, hsite, rfl⟩
        · rw [List.pairwise_append]
          refine ⟨hwf.triples_nodup, List.pairwise_singleton _ _, ?_⟩
          intro a ha b hb
          simp only [List.mem_singleton] at hb
          subst hb
          intro hcon
          exact hnomatch a ha ((tripleMatches_iff _ _ _ _).mpr
            ⟨hcon.1, hcon.2.1, hcon.2.2⟩)
        · intro x hx
          rcases List.mem_append.mp hx with hold | hnew
          · have hcount := hwf.counts x hold
            unfold visitCountOf
            dsimp only
            rw [List.countP_append]
            have hzero : List.countP (visitKeyB x.site_id x.page_path x.device_type)
                [⟨site.id, normalizePagePath p.pagePath,
                  normalizeDeviceType p.deviceType p.userAgent, trimEventId p.nostrEventId, now⟩] = 0 := by
              simp only [List.countP_cons, List.countP_nil, visitKeyB]
              have hb := hnomatch x hold
              rw [tripleMatches_iff] at hb
              simp only [decide_eq_true_eq]
              have : ¬ (site.id = x.site_id ∧ normalizePagePath p.pagePath = x.page_path ∧
                  normalizeDeviceType p.deviceType p.userAgent = x.device_type) := by
                intro hcon
                exact hb ⟨hcon.1.symm, hcon.2.1.symm, hcon.2.2.symm⟩
              simp [this]
            rw [hzero, hcount]
            rfl
          · simp only [List.mem_singleton] at hnew
            subst hnew
            unfold visitCountOf
            dsimp only
            rw [List.countP_append]
            have hzero : List.countP (visitKeyB site.id (normalizePagePath p.pagePath)
                (normalizeDeviceType p.deviceType p.userAgent)) s.visits = 0 := by
              rw [List.countP_eq_zero]
              intro w hw hwk
              obtain ⟨h1, h2, h3⟩ := (visitKeyB_iff _ _ _ _).mp hwk
              obtain ⟨q, hq, hq1, hq2, hq3⟩ := hwf.covered w hw
              exact hnomatch q hq ((tripleMatches_iff _ _ _ _).mpr
                ⟨hq1.trans h1, hq2.trans h2, hq3.trans h3⟩)
            rw [hzero]
            simp [List.countP_cons, visitKeyB_iff]
        · intro v hv
          rcases List.mem_append.mp hv with hold | hnew
          · obtain ⟨q, hq, h1, h2, h3⟩ := hwf.covered v hold
            exact ⟨q, List.mem_append_left _ hq, h1, h2, h3⟩
          · simp only [List.mem_singleton] at hnew
            subst hnew
            exact ⟨⟨site.id, normalizePagePath p.pagePath,
              normalizeDeviceType p.deviceType p.userAgent, 1, now⟩,
              List.mem_append_right _ (List.mem_singleton.mpr rfl), rfl, rfl, rfl⟩

theorem countP_congr_mem {α : Type} {p q : α → Bool} :
    ∀ {l : List α}, (∀ a ∈ l, p a = q a) → l.countP p = l.countP q := by
  intro l
  induction l with
  | nil => intro _; rfl
  | cons a l ih =>
    intro h
    rw [List.countP_cons, List.countP_cons, ih (fun b hb => h b (List.mem_cons_of_mem a hb)),
      h a (List.mem_cons_self a l)]

theorem wf_update {s s2 : Store} {now : Nat} {uuid caller : String} {np : Bool}
    {nm : Option String} {r : SiteRec} (hwf : WF s)
    (h : updateSiteByOwner now uuid caller np nm s = .ok (r, s2)) : WF s2 := by
  unfold updateSiteByOwner at h
  split at h
  · exact absurd h (by simp)
  · dsimp only at h
    split at h
    · exact absurd h (by simp)
    · split at h
      · exact absurd h (by simp)
      · split at h
        · split at h
          · injection h with h
            injection h with hr hs2
            refine hs2 ▸ wf_of_sites_map hwf _ ?_
            intro q
            unfold updateNameRow
            split <;> rfl
          · exact absurd h (by simp)
        · injection h with h
          injection h with hr hs2
          exact hs2 ▸ hwf

theorem wf_delete {s s2 : Store} {uuid caller : String} {r : DeleteResult}
    (hwf : WF s) (h : deleteSiteByOwner uuid caller s = .ok (r, s2)) : WF s2 := by
  unfold deleteSiteByOwner at h
  split at h
  · exact absurd h (by simp)
  · rename_i site hfind
    dsimp only at h
    split at h
    · exact absurd h (by simp)
    · split at h
      · exact absurd h (by simp)
      · injection h with h
        injection h with hr hs2
        subst hs2
        constructor
        · intro q hq
          exact hwf.ids_lt q (List.mem_of_mem_filter hq)
        · intro v hv
          rw [List.mem_filter] at hv
          obtain ⟨q, hq, hids⟩ := hwf.visits_ref v hv.1
          refine ⟨q, List.mem_filter.mpr ⟨hq, ?_⟩, hids⟩
          simp only [decide_eq_true_eq] at hv ⊢
          rw [hids]
          exact hv.2
        · intro ps hps
          rw [List.mem_filter] at hps
          obtain ⟨q, hq, hids⟩ := hwf.stats_ref ps hps.1
          refine ⟨q, List.mem_filter.mpr ⟨hq, ?_⟩, hids⟩
          simp only [decide_eq_true_eq] at hps ⊢
          rw [hids]
          exact hps.2
        · exact hwf.triples_nodup.filter _
        · intro ps hps
          rw [List.mem_filter] at hps
          have hcount := hwf.counts ps hps.1
          unfold visitCountOf at hcount ⊢
          dsimp only
          rw [List.countP_filter]
          rw [hcount]
          refine (countP_congr_mem ?_).symm
          intro v _
          by_cases hk : visitKeyB ps.site_id ps.page_path ps.device_type v = true
          · have hv1 := ((visitKeyB_iff _ _ _ _).mp hk).1
            have hps2 : decide (ps.site_id ≠ site.id) = true := hps.2
            simp only [decide_eq_true_eq] at hps2
            have : decide (v.site_id ≠ site.id) = true := by
              simp only [decide_eq_true_eq]
              rw [hv1]
              exact hps2
            rw [hk, this]
            rfl
          · simp only [Bool.not_eq_true] at hk
            rw [hk]
            rfl
        · intro v hv
          rw [List.mem_filter] at hv
          obtain ⟨q, hq, h1, h2, h3⟩ := hwf.covered v hv.1
          refine ⟨q, List.mem_filter.mpr ⟨hq, ?_⟩, h1, h2, h3⟩
          simp only [decide_eq_true_eq] at hv ⊢
          rw [h1]
          exact hv.2

/-- Every reachable store is well-formed: each core write operation
preserves the counter/history invariant. -/
theorem reachable_wf {s : Store} (h : Reachable s) : WF s := by
  induction h with
  | empty => exact wf_empty
  | register _ hop ih => exact wf_register ih hop
  | visit _ hop ih => exact wf_visit ih hop
  | update _ hop ih => exact wf_update ih hop
  | delete _ hop ih => exact wf_delete ih hop

/-! ### Counting lemmas for the aggregation claims -/

/-- The visits belonging to one site. -/
def siteOfB (sid : Nat) (v : VisitRec) : Bool := decide (v.site_id = sid)

theorem countP_split {α : Type} (p q : α → Bool) :
    ∀ l : List α,
      l.countP p = l.countP (fun a => p a && q a) + l.countP (fun a => p a && !q a) := by
  intro l
  induction l with
  | nil => rfl
  | cons a l ih =>
    simp only [List.countP_cons]
    cases hp : p a <;> cases hq : q a <;> simp [hp, hq] <;> omega

/-- Summing the per-triple counters of one site over pairwise-distinct,
count-correct, covering rows gives the number of raw visits of the site. -/
theorem sum_counts_eq (sid : Nat) :
    ∀ (P : List PageStatRec) (V : List VisitRec),
      P.Pairwise diffTriple →
      (∀ ps ∈ P, ps.site_id = sid) →
      (∀ ps ∈ P, ps.visit_count = V.countP (visitKeyB ps.site_id ps.page_path ps.device_type)) →
      (∀ v ∈ V, v.site_id = sid →
        ∃ ps ∈ P, ps.site_id = v.site_id ∧ ps.page_path = v.page_path ∧ ps.device_type = v.device_type) →
      (P.map PageStatRec.visit_count).sum = V.countP (siteOfB sid) := by
  intro P
  induction P with
  | nil =>
    intro V _ _ _ hcov
    simp only [List.map_nil, List.sum_nil]
    symm
    rw [List.countP_eq_zero]
    intro v hv hb
    simp only [siteOfB, decide_eq_true_eq] at hb
    obtain ⟨ps, hps, _⟩ := hcov v hv hb
    exact absurd hps (List.not_mem_nil ps)
  | cons ps P ih =>
    intro V hpair hsid hcounts hcov
    have hpair2 := List.pairwise_cons.mp hpair
    have hkey := hcounts ps (List.mem_cons_self ps P)
    have hsid0 := hsid ps (List.mem_cons_self ps P)
    have hsplit := countP_split (siteOfB sid)
      (visitKeyB ps.site_id ps.page_path ps.device_type) V
    have hfirst : V.countP (fun v => siteOfB sid v &&
        visitKeyB ps.site_id ps.page_path ps.device_type v) =
        V.countP (visitKeyB ps.site_id ps.page_path ps.device_type) := by
      apply countP_congr_mem
      intro v _
      by_cases hk : visitKeyB ps.site_id ps.page_path ps.device_type v = true
      · have h1 := ((visitKeyB_iff _ _ _ _).mp hk).1
        have : siteOfB sid v = true := by
          simp only [siteOfB, decide_eq_true_eq]
          rw [h1, hsid0]
        simp [hk, this]
      · simp only [Bool.not_eq_true] at hk
        rw [hk]
        simp
    have hrest : V.countP (fun v => siteOfB sid v &&
        !visitKeyB ps.site_id ps.page_path ps.device_type v) =
        (V.filter (fun v => !visitKeyB ps.site_id ps.page_path ps.device_type v)).countP
          (siteOfB sid) :=
      (List.countP_filter _ _ _).symm
    have hih := ih (V.filter (fun v => !visitKeyB ps.site_id ps.page_path ps.device_type v))
      hpair2.2
      (fun q hq => hsid q (List.mem_cons_of_mem ps hq))
      (by
        intro q hq
        rw [hcounts q (List.mem_cons_of_mem ps hq), List.countP_filter]
        apply countP_congr_mem
        intro v _
        by_cases hkq : visitKeyB q.site_id q.page_path q.device_type v = true
        · obtain ⟨hq1, hq2, hq3⟩ := (visitKeyB_iff _ _ _ _).mp hkq
          have hnk : visitKeyB ps.site_id ps.page_path ps.device_type v = false := by
            by_contra hcon
            simp only [Bool.not_eq_false] at hcon
            obtain ⟨hp1, hp2, hp3⟩ := (visitKeyB_iff _ _ _ _).mp hcon
            exact hpair2.1 q hq ⟨hp1.symm.trans hq1, hp2.symm.trans hq2, hp3.symm.trans hq3⟩
          rw [hkq, hnk]
          rfl
        · simp only [Bool.not_eq_true] at hkq
          rw [hkq]
          rfl)
      (by
        intro v hv hvs
        rw [List.mem_filter] at hv
        obtain ⟨q, hq, h1, h2, h3⟩ := hcov v hv.1 hvs
        rcases List.mem_cons.mp hq with hq0 | hq1
        · exfalso
          subst hq0
          have : visitKeyB q.site_id q.page_path q.device_type v = true :=
            (visitKeyB_iff _ _ _ _).mpr ⟨h1.symm, h2.symm, h3.symm⟩
          rw [this] at hv
          exact absurd hv.2 (by simp)
        · exact ⟨q, hq1, h1, h2, h3⟩)
    simp only [List.map_cons, List.sum_cons]
    rw [hsplit, hfirst, hrest, hkey, hih]

/-- The running total of the grouping fold is the initial total plus the
sum of the processed counters. -/
theorem foldl_applyRow_total :
    ∀ (rows : List PageStatRec) (acc : List PageStatsEntry × Nat),
      (rows.foldl applyRow acc).2 = acc.2 + (rows.map PageStatRec.visit_count).sum := by
  intro rows
  induction rows with
  | nil => intro acc; simp
  | cons r rows ih =>
    intro acc
    rw [List.foldl_cons, ih (applyRow acc r)]
    have h2 : (applyRow acc r).2 = acc.2 + r.visit_count := rfl
    rw [h2]
    simp only [List.map_cons, List.sum_cons]
    omega

theorem insertRow_perm (a : PageStatRec) : ∀ l, (insertRow a l).Perm (a :: l) := by
  intro l
  induction l with
  | nil => exact List.Perm.refl _
  | cons b l ih =>
    unfold insertRow
    split
    · exact List.Perm.refl _
    · exact (ih.cons b).trans (List.Perm.swap a b l)

theorem sortRows_perm : ∀ l, (sortRows l).Perm l := by
  intro l
  induction l with
  | nil => exact List.Perm.refl _
  | cons a l ih => exact (insertRow_perm a (sortRows l)).trans (ih.cons a)

/-- C1: in every reachable store, each `PageStat` counter equals the
number of stored (non-suppressed) visit rows of its triple; consequently,
for every registered site the counters of the site sum to the number of
raw visit rows of the site, and `getSiteStats` reports exactly that sum
as `totals.visits`. -/
theorem c1_stats_counters_consistent (s : Store) (uuid npub : String) (site : SiteRec)
    (hreach : Reachable s) (hfind : findSite s uuid = some site) :
    (∀ ps ∈ s.page_stats,
        ps.visit_count = visitCountOf s ps.site_id ps.page_path ps.device_type) ∧
    ((s.page_stats.filter (fun ps => decide (ps.site_id = site.id))).map
        PageStatRec.visit_count).sum = s.visits.countP (siteOfB site.id) ∧
    (∀ res, getSiteStats s uuid npub = .ok res →
      res.totalsVisits = s.visits.countP (siteOfB site.id)) := by
  have hwf := reachable_wf hreach
  have hsum : ((s.page_stats.filter (fun ps => decide (ps.site_id = site.id))).map
      PageStatRec.visit_count).sum = s.visits.countP (siteOfB site.id) := by
    apply sum_counts_eq site.id _ s.visits (hwf.triples_nodup.filter _)
    · intro ps hps
      rw [List.mem_filter] at hps
      simpa using hps.2
    · intro ps hps
      exact hwf.counts ps (List.mem_of_mem_filter hps)
    · intro v hv hside
      obtain ⟨ps, hps, h1, h2, h3⟩ := hwf.covered v hv
      exact ⟨ps, List.mem_filter.mpr ⟨hps, by simp [h1, hside]⟩, h1, h2, h3⟩
  refine ⟨hwf.counts, hsum, ?_⟩
  intro res hres
  unfold getSiteStats at hres
  rw [hfind] at hres
  dsimp only at hres
  split at hres
  · exact absurd hres (by simp)
  · injection hres with hres
    rw [← hres]
    dsimp only
    rw [foldl_applyRow_total]
    have hperm : ((sortRows (s.page_stats.filter (fun ps => decide (ps.site_id = site.id)))).map
        PageStatRec.visit_count).sum =
        ((s.page_stats.filter (fun ps => decide (ps.site_id = site.id))).map
          PageStatRec.visit_count).sum :=
      ((sortRows_perm _).map PageStatRec.visit_count).sum_eq
    rw [hperm, hsum]
    simp

/-! ### Concrete reachable stores used by witnesses and counterexamples

The scenario of spec §8: a site is registered, then `/home` is visited
from a desktop three times (the first visit carrying external event id
`ev1`); a fourth delivery repeats `ev1` and is suppressed. -/

def siteA : SiteRec := ⟨1, "abc12345", none, some "ownerX", "tok1", 1, 1⟩

def storeA1 : Store := ⟨[siteA], [], [], 2⟩

def storeA2 : Store :=
  ⟨[siteA], [⟨1, "/home", .desktop, some "ev1", 2⟩], [⟨1, "/home", .desktop, 1, 2⟩], 2⟩

def storeA3 : Store :=
  ⟨[siteA],
    [⟨1, "/home", .desktop, some "ev1", 2⟩, ⟨1, "/home", .desktop, none, 3⟩],
    [⟨1, "/home", .desktop, 2, 3⟩], 2⟩

def storeA4 : Store :=
  ⟨[siteA],
    [⟨1, "/home", .desktop, some "ev1", 2⟩, ⟨1, "/home", .desktop, none, 3⟩,
      ⟨1, "/home", .desktop, none, 4⟩],
    [⟨1, "/home", .desktop, 3, 4⟩], 2⟩

theorem regA : registerSite "tok1" 1 ⟨"abc12345", none, "ownerX"⟩ emptyStore =
    .ok (siteA, storeA1) := rfl

theorem visA1 : recordVisit 2 ⟨"abc12345", some "/home", some "desktop", none, some "ev1"⟩ storeA1 =
    .ok (⟨"abc12345", "/home", .desktop, 1, some 2⟩, storeA2) := rfl

theorem visA2 : recordVisit 3 ⟨"abc12345", some "/home", some "desktop", none, none⟩ storeA2 =
    .ok (⟨"abc12345", "/home", .desktop, 2, some 3⟩, storeA3) := rfl

theorem visA3 : recordVisit 4 ⟨"abc12345", some "/home", some "desktop", none, none⟩ storeA3 =
    .ok (⟨"abc12345", "/home", .desktop, 3, some 4⟩, storeA4) := rfl

theorem reachA2 : Reachable storeA2 :=
  .visit (.register .empty regA) visA1

theorem reachA4 : Reachable storeA4 :=
  .visit (.visit reachA2 visA2) visA3

/-- Witness for C1: in the concrete reachable store of the spec §8
scenario, the counters of the registered site sum to the raw visit count
of the site, and that count is 3 (the duplicate delivery was suppressed). -/
theorem c1_witness :
    ((storeA4.page_stats.filter (fun ps => decide (ps.site_id = siteA.id))).map
        PageStatRec.visit_count).sum = storeA4.visits.countP (siteOfB siteA.id) ∧
    storeA4.visits.countP (siteOfB siteA.id) = 3 := by
  have h := c1_stats_counters_consistent storeA4 "abc12345" "ownerX" siteA reachA4 rfl
  exact ⟨h.2.1, by decide⟩

/-! ### Deduplication path: C2, C3, C10 -/

/-- Counterexample for C2 as stated: a call whose trimmed external event
id duplicates a stored visit, made with an unregistered site identifier,
returns a NotFound error instead of returning without error (the store is
still unchanged, but the first half of the claim fails). -/
theorem c2_counterexample :
    storeA2.visits.any (fun v => decide (v.nostr_event_id = some "ev1")) = true ∧
    trimEventId (some "ev1") = some "ev1" ∧
    recordVisit 7 ⟨"unregistered", none, none, none, some "ev1"⟩ storeA2 =
      .error "Site not found" :=
  ⟨by decide, by decide, rfl⟩

/-- C2 (amended): a `recordVisit` call on an existing site whose trimmed
external event id duplicates a stored visit returns without error and
leaves the entire store unchanged — no visit row inserted, no `PageStat`
row created or modified. -/
theorem c2_dup_leaves_store_unchanged (s : Store) (now : Nat) (p : VisitParams)
    (site : SiteRec) (e : String)
    (hfind : findSite s p.siteUuid = some site)
    (he : trimEventId p.nostrEventId = some e)
    (hdup : s.visits.any (fun v => decide (v.nostr_event_id = some e)) = true) :
    ∃ r, recordVisit now p s = .ok (r, s) := by
  have hd : isDupEvent s (trimEventId p.nostrEventId) = true := by
    rw [he]
    exact hdup
  unfold recordVisit
  rw [hfind]
  dsimp only
  split
  · split
    · exact ⟨_, rfl⟩
    · exact ⟨_, rfl⟩
  · rename_i hcon
    exact absurd hd hcon

/-- Witness for C2 (amended) at a concrete store: a duplicate delivery of
`ev1` (with surrounding whitespace trimmed away) on the registered site
succeeds and leaves the store untouched. -/
theorem c2_witness :
    trimEventId (some " ev1 ") = some "ev1" ∧
    ∃ r, recordVisit 9 ⟨"abc12345", some "/other", none, none, some " ev1 "⟩ storeA2 =
      .ok (r, storeA2) :=
  ⟨by decide, c2_dup_leaves_store_unchanged storeA2 9
    ⟨"abc12345", some "/other", none, none, some " ev1 "⟩ siteA "ev1"
    rfl (by decide) (by decide)⟩

/-- The counter bump leaves the `page_stats` unique key unchanged, so the
triple test is invariant under it. -/
theorem tripleMatches_bump (sid : Nat) (pp : String) (dv : DeviceType) (now : Nat)
    (x : PageStatRec) :
    tripleMatches sid pp dv (bumpStat sid pp dv now x) = tripleMatches sid pp dv x := by
  unfold bumpStat
  split <;> rfl

/-- C3: repeating one `recordVisit` call (same parameters, any later
timestamp) with a non-blank external event id yields the same resulting
visits count both times: the second delivery is suppressed and reads back
the counter the first delivery produced. -/
theorem c3_record_idempotent (s s2 s3 : Store) (now now2 : Nat) (p : VisitParams)
    (e : String) (r1 r2 : VisitResult)
    (he : trimEventId p.nostrEventId = some e)
    (h1 : recordVisit now p s = .ok (r1, s2))
    (h2 : recordVisit now2 p s2 = .ok (r2, s3)) :
    r1.visits = r2.visits := by
  unfold recordVisit at h1
  rcases hfind : findSite s p.siteUuid with _ | site <;> rw [hfind] at h1 <;> dsimp only at h1
  · exact absurd h1 (by simp)
  · split at h1
    · rename_i hd
      -- the first call was already a duplicate: the store is unchanged
      split at h1
      · rename_i ps hfound
        injection h1 with h1
        injection h1 with hr1 hs2
        subst hs2
        unfold recordVisit at h2
        rw [hfind] at h2
        dsimp only at h2
        split at h2
        · split at h2
          · rename_i ps2 hfound2
            rw [hfound] at hfound2
            injection hfound2 with hps
            subst hps
            injection h2 with h2
            injection h2 with hr2 hs3
            rw [← hr1, ← hr2]
          · rename_i hfound2
            rw [hfound] at hfound2
            exact absurd hfound2 (by simp)
        · rename_i hcon
          exact absurd hd hcon
      · rename_i hfound
        injection h1 with h1
        injection h1 with hr1 hs2
        subst hs2
        unfold recordVisit at h2
        rw [hfind] at h2
        dsimp only at h2
        split at h2
        · split at h2
          · rename_i ps2 hfound2
            rw [hfound] at hfound2
            exact absurd hfound2 (by simp)
          · injection h2 with h2
            injection h2 with hr2 hs3
            rw [← hr1, ← hr2]
        · rename_i hcon
          exact absurd hd hcon
    · rename_i hd
      split at h1
      · rename_i ps hfound
        injection h1 with h1
        injection h1 with hr1 hs2
        subst hs2
        unfold recordVisit at h2
        dsimp only at h2
        rw [show findSite
            ⟨s.sites, s.visits ++ [⟨site.id, normalizePagePath p.pagePath,
              normalizeDeviceType p.deviceType p.userAgent, trimEventId p.nostrEventId, now⟩],
              s.page_stats.map (bumpStat site.id (normalizePagePath p.pagePath)
                (normalizeDeviceType p.deviceType p.userAgent) now), s.nextSiteId⟩
            p.siteUuid = findSite s p.siteUuid from rfl, hfind] at h2
        dsimp only at h2
        have hd2 : isDupEvent
            ⟨s.sites, s.visits ++ [⟨site.id, normalizePagePath p.pagePath,
              normalizeDeviceType p.deviceType p.userAgent, trimEventId p.nostrEventId, now⟩],
              s.page_stats.map (bumpStat site.id (normalizePagePath p.pagePath)
                (normalizeDeviceType p.deviceType p.userAgent) now), s.nextSiteId⟩
            (trimEventId p.nostrEventId) = true := by
          rw [he]
          unfold isDupEvent
          dsimp only
          rw [List.any_append]
          simp
        split at h2
        · split at h2
          · rename_i ps2 hfound2
            have hmapfind : (s.page_stats.map (bumpStat site.id (normalizePagePath p.pagePath)
                (normalizeDeviceType p.deviceType p.userAgent) now)).find?
                  (tripleMatches site.id (normalizePagePath p.pagePath)
                    (normalizeDeviceType p.deviceType p.userAgent)) =
                some (bumpStat site.id (normalizePagePath p.pagePath)
                  (normalizeDeviceType p.deviceType p.userAgent) now ps) := by
              rw [List.find?_map]
              have hcomp : (tripleMatches site.id (normalizePagePath p.pagePath)
                  (normalizeDeviceType p.deviceType p.userAgent)) ∘
                    (bumpStat site.id (normalizePagePath p.pagePath)
                      (normalizeDeviceType p.deviceType p.userAgent) now) =
                  tripleMatches site.id (normalizePagePath p.pagePath)
                    (normalizeDeviceType p.deviceType p.userAgent) := by
                funext x
                exact tripleMatches_bump _ _ _ _ x
              rw [hcomp, hfound]
              rfl
            rw [hmapfind] at hfound2
            injection hfound2 with hps2
            injection h2 with h2
            injection h2 with hr2 hs3
            rw [← hr1, ← hr2, ← hps2]
            have hbump : (bumpStat site.id (normalizePagePath p.pagePath)
                (normalizeDeviceType p.deviceType p.userAgent) now ps).visit_count =
                ps.visit_count + 1 := by
              unfold bumpStat
              rw [if_pos (List.find?_some hfound)]
            dsimp only
            rw [hbump]
          · rename_i hfound2
            have hmapfind : (s.page_stats.map (bumpStat site.id (normalizePagePath p.pagePath)
                (normalizeDeviceType p.deviceType p.userAgent) now)).find?
                  (tripleMatches site.id (normalizePagePath p.pagePath)
                    (normalizeDeviceType p.deviceType p.userAgent)) =
                some (bumpStat site.id (normalizePagePath p.pagePath)
                  (normalizeDeviceType p.deviceType p.userAgent) now ps) := by
              rw [List.find?_map]
              have hcomp : (tripleMatches site.id (normalizePagePath p.pagePath)
                  (normalizeDeviceType p.deviceType p.userAgent)) ∘
                    (bumpStat site.id (normalizePagePath p.pagePath)
                      (normalizeDeviceType p.deviceType p.userAgent) now) =
                  tripleMatches site.id (normalizePagePath p.pagePath)
                    (normalizeDeviceType p.deviceType p.userAgent) := by
                funext x
                exact tripleMatches_bump _ _ _ _ x
              rw [hcomp, hfound]
              rfl
            rw [hmapfind] at hfound2
            exact absurd hfound2 (by simp)
        · rename_i hcon
          exact absurd hd2 hcon
      · rename_i hfound
        injection h1 with h1
        injection h1 with hr1 hs2
        subst hs2
        unfold recordVisit at h2
        dsimp only at h2
        rw [show findSite
            ⟨s.sites, s.visits ++ [⟨site.id, normalizePagePath p.pagePath,
              normalizeDeviceType p.deviceType p.userAgent, trimEventId p.nostrEventId, now⟩],
              s.page_stats ++ [⟨site.id, normalizePagePath p.pagePath,
                normalizeDeviceType p.deviceType p.userAgent, 1, now⟩], s.nextSiteId⟩
            p.siteUuid = findSite s p.siteUuid from rfl, hfind] at h2
        dsimp only at h2
        have hd2 : isDupEvent
            ⟨s.sites, s.visits ++ [⟨site.id, normalizePagePath p.pagePath,
              normalizeDeviceType p.deviceType p.userAgent, trimEventId p.nostrEventId, now⟩],
              s.page_stats ++ [⟨site.id, normalizePagePath p.pagePath,
                normalizeDeviceType p.deviceType p.userAgent, 1, now⟩], s.nextSiteId⟩
            (trimEventId p.nostrEventId) = true := by
          rw [he]
          unfold isDupEvent
          dsimp only
          rw [List.any_append]
          simp
        have hnew : tripleMatches site.id (normalizePagePath p.pagePath)
            (normalizeDeviceType p.deviceType p.userAgent)
            (⟨site.id, normalizePagePath p.pagePath,
              normalizeDeviceType p.deviceType p.userAgent, 1, now⟩ : PageStatRec) = true := by
          simp [tripleMatches]
        have happfind : (s.page_stats ++ [(⟨site.id, normalizePagePath p.pagePath,
            normalizeDeviceType p.deviceType p.userAgent, 1, now⟩ : PageStatRec)]).find?
              (tripleMatches site.id (normalizePagePath p.pagePath)
                (normalizeDeviceType p.deviceType p.userAgent)) =
            some (⟨site.id, normalizePagePath p.pagePath,
              normalizeDeviceType p.deviceType p.userAgent, 1, now⟩ : PageStatRec) := by
          rw [List.find?_append, hfound, List.find?_cons_of_pos [] hnew]
          rfl
        split at h2
        · split at h2
          · rename_i ps2 hfound2
            rw [happfind] at hfound2
            injection hfound2 with hps2
            injection h2 with h2
            injection h2 with hr2 hs3
            rw [← hr1, ← hr2, ← hps2]
          · rename_i hfound2
            rw [happfind] at hfound2
            exact absurd hfound2 (by simp)
        · rename_i hcon
          exact absurd hd2 hcon

/-- C10: a duplicate delivery on an existing site changes nothing and
reports the counter of the currently-supplied normalized triple (zero and
null when that triple has no `PageStat` row), not the counter of the
triple the original visit was recorded under. -/
theorem c10_dup_reports_current_triple (s : Store) (now : Nat) (p : VisitParams)
    (site : SiteRec) (e : String)
    (hfind : findSite s p.siteUuid = some site)
    (he : trimEventId p.nostrEventId = some e)
    (hdup : s.visits.any (fun v => decide (v.nostr_event_id = some e)) = true) :
    recordVisit now p s = .ok
      (⟨site.site_uuid, normalizePagePath p.pagePath,
        normalizeDeviceType p.deviceType p.userAgent,
        (match s.page_stats.find? (tripleMatches site.id (normalizePagePath p.pagePath)
            (normalizeDeviceType p.deviceType p.userAgent)) with
          | some ps => ps.visit_count
          | none => 0),
        (match s.page_stats.find? (tripleMatches site.id (normalizePagePath p.pagePath)
            (normalizeDeviceType p.deviceType p.userAgent)) with
          | some ps => some ps.last_seen
          | none => none)⟩, s) := by
  have hd : isDupEvent s (trimEventId p.nostrEventId) = true := by
    rw [he]
    exact hdup
  unfold recordVisit
  rw [hfind]
  dsimp only
  rcases hfound : s.page_stats.find? (tripleMatches site.id (normalizePagePath p.pagePath)
      (normalizeDeviceType p.deviceType p.userAgent)) with _ | ps <;>
    dsimp only <;> split
  · rfl
  · rename_i hcon
    exact absurd hd hcon
  · rfl
  · rename_i hcon
    exact absurd hd hcon

/-- A second registered site, used to show that a duplicate event id
first recorded under site A answers with site B's (empty) triple. -/
def siteB : SiteRec := ⟨2, "bcd23456", none, some "ownerY", "tok2", 5, 5⟩

def storeB : Store :=
  ⟨[siteA, siteB], [⟨1, "/home", .desktop, some "ev1", 2⟩],
    [⟨1, "/home", .desktop, 1, 2⟩], 3⟩

theorem regB : registerSite "tok2" 5 ⟨"bcd23456", none, "ownerY"⟩ storeA2 =
    .ok (siteB, storeB) := rfl

theorem reachB : Reachable storeB := .register reachA2 regB

/-- Witness for C10: event `ev1` was first recorded under site A on
`/home`/desktop; a duplicate delivery under site B with `/other`/mobile
changes nothing and reports zero visits and null last-seen. -/
theorem c10_witness :
    recordVisit 6 ⟨"bcd23456", some "/other", some "mobile", none, some " ev1 "⟩ storeB =
      .ok (⟨"bcd23456", "/other", .mobile, 0, none⟩, storeB) := by
  have h := c10_dup_reports_current_triple storeB 6
    ⟨"bcd23456", some "/other", some "mobile", none, some " ev1 "⟩ siteB "ev1"
    rfl (by decide) (by decide)
  exact h

/-! ### Ownership guard: C4, C5 -/

/-- A site registered with an empty owner identity: the stored owner is
the empty string. -/
def siteC : SiteRec := ⟨1, "cde34567", none, some "", "tok3", 1, 1⟩

def storeC : Store := ⟨[siteC], [], [], 2⟩

theorem regC : registerSite "tok3" 1 ⟨"cde34567", none, ""⟩ emptyStore =
    .ok (siteC, storeC) := rfl

theorem reachC : Reachable storeC := .register .empty regC

/-- Counterexample for C4 as stated: on a site whose stored owner
identity is empty, `getSiteStats` does not fail with an authorization
error — it returns the stats to an arbitrary caller. -/
theorem c4_counterexample :
    findSite storeC "cde34567" = some siteC ∧
    siteC.owner_npub = some "" ∧
    getSiteStats storeC "cde34567" "anybody" =
      .ok ⟨"cde34567", none, some "", 0, 0, []⟩ :=
  ⟨rfl, rfl, rfl⟩

/-- C4 (amended): on an existing site whose stored owner identity is
absent or empty, `updateSiteByOwner` and `deleteSiteByOwner` fail with
the authorization error for every caller, but `getSiteStats` skips its
owner check entirely and returns the stats to every caller. -/
theorem c4_no_owner_no_auth (s : Store) (uuid caller npub : String) (now : Nat)
    (np : Bool) (nm : Option String) (site : SiteRec)
    (hfind : findSite s uuid = some site)
    (hempty : site.owner_npub = none ∨ site.owner_npub = some "") :
    updateSiteByOwner now uuid caller np nm s = .error "Unable to validate owner pubkey" ∧
    deleteSiteByOwner uuid caller s = .error "Unable to validate owner pubkey" ∧
    ∃ res, getSiteStats s uuid npub = .ok res := by
  have hnorm : normalizeHexPubkey site.owner_npub = none := by
    rcases hempty with h | h <;> rw [h] <;> rfl
  have htruthy : truthyOpt site.owner_npub = false := by
    rcases hempty with h | h <;> rw [h] <;> rfl
  refine ⟨?_, ?_, ?_⟩
  · unfold updateSiteByOwner
    rw [hfind]
    dsimp only
    rw [hnorm, if_pos (Or.inl (show truthyOpt none = false from rfl))]
  · unfold deleteSiteByOwner
    rw [hfind]
    dsimp only
    rw [hnorm, if_pos (Or.inl (show truthyOpt none = false from rfl))]
  · unfold getSiteStats
    rw [hfind]
    dsimp only
    have hcond : ¬ (truthyOpt site.owner_npub = true ∧ site.owner_npub ≠ some npub) := by
      rw [htruthy]
      simp
    rw [if_neg hcond]
    exact ⟨_, rfl⟩

/-- Witness for C4 (amended) on the concrete reachable store with an
empty stored owner. -/
theorem c4_witness :
    updateSiteByOwner 9 "cde34567" "caller" false none storeC =
      .error "Unable to validate owner pubkey" ∧
    deleteSiteByOwner "cde34567" "caller" storeC =
      .error "Unable to validate owner pubkey" := by
  have h := c4_no_owner_no_auth storeC "cde34567" "caller" "anybody" 9 false none siteC
    rfl (Or.inr rfl)
  exact ⟨h.1, h.2.1⟩

/-- Witness for C3: delivering `ev1` to the registered site a second
time yields the same visits count (1) as the first delivery. -/
theorem c3_witness :
    recordVisit 9 ⟨"abc12345", some "/home", some "desktop", none, some "ev1"⟩ storeA2 =
      .ok (⟨"abc12345", "/home", .desktop, 1, some 2⟩, storeA2) ∧
    (⟨"abc12345", "/home", .desktop, 1, some 2⟩ : VisitResult).visits =
      (⟨"abc12345", "/home", .desktop, 1, some 2⟩ : VisitResult).visits := by
  refine ⟨rfl, ?_⟩
  exact c3_record_idempotent storeA1 storeA2 storeA2 2 9
    ⟨"abc12345", some "/home", some "desktop", none, some "ev1"⟩ "ev1"
    ⟨"abc12345", "/home", .desktop, 1, some 2⟩ ⟨"abc12345", "/home", .desktop, 1, some 2⟩
    (by decide) visA1 rfl

/-- The all-zeros public key in canonical lowercase hex form. -/
def hexZeroKey : String :=
  "0000000000000000000000000000000000000000000000000000000000000000"

/-- The bech32 `npub` encoding of the all-zeros public key. -/
def npubZeroKey : String :=
  "npub1qqqqqqqqqqqqqqqqqqqqqqqqqqqqqqqqqqqqqqqqqqqqqqqqqqqqzqujme"

/-- A site registered with the npub-encoded owner identity. -/
def siteD : SiteRec := ⟨1, "def45678", none, some npubZeroKey, "tok4", 1, 1⟩

def storeD : Store := ⟨[siteD], [], [], 2⟩

theorem regD : registerSite "tok4" 1 ⟨"def45678", none, npubZeroKey⟩ emptyStore =
    .ok (siteD, storeD) := rfl

theorem reachD : Reachable storeD := .register .empty regD

/-- Counterexample for C5 as stated: the stored owner is the npub
encoding and the caller supplies the hex encoding of the same key; both
normalize to the same canonical hex key and `updateSiteByOwner` passes,
yet `getSiteStats` fails — it compares the raw stored string against the
caller string instead of using the Identity Normalizer. -/
theorem c5_counterexample :
    normalizeHexPubkey (some npubZeroKey) = some hexZeroKey ∧
    normalizeHexPubkey (some hexZeroKey) = some hexZeroKey ∧
    updateSiteByOwner 9 "def45678" hexZeroKey false none storeD = .ok (siteD, storeD) ∧
    getSiteStats storeD "def45678" hexZeroKey = .error "Owner npub mismatch" :=
  ⟨rfl, rfl, rfl, rfl⟩

/-- C5 (amended): for `updateSiteByOwner` and `deleteSiteByOwner` on an
existing site, the call succeeds exactly when the stored owner identity
and the caller identity both normalize to the same NON-EMPTY canonical
hex key (the JS falsiness guard also rejects the empty canonical form
produced by an empty-payload npub such as `npub106246s`);
`getSiteStats`, however, succeeds exactly when the stored owner is
falsy or literally equal to the caller-supplied string (raw comparison,
no normalization). -/
theorem c5_owner_guard_normalized (s : Store) (uuid caller : String) (now : Nat)
    (np : Bool) (nm : Option String) (site : SiteRec)
    (hfind : findSite s uuid = some site) :
    ((∃ r s2, updateSiteByOwner now uuid caller np nm s = .ok (r, s2)) ↔
      (∃ k, k ≠ "" ∧ normalizeHexPubkey site.owner_npub = some k ∧
        normalizeHexPubkey (some caller) = some k)) ∧
    ((∃ r s2, deleteSiteByOwner uuid caller s = .ok (r, s2)) ↔
      (∃ k, k ≠ "" ∧ normalizeHexPubkey site.owner_npub = some k ∧
        normalizeHexPubkey (some caller) = some k)) ∧
    ((∃ res, getSiteStats s uuid caller = .ok res) ↔
      (truthyOpt site.owner_npub = true → site.owner_npub = some caller)) := by
  have hupdfind : findSite { s with sites := s.sites.map (updateNameRow uuid now nm) } uuid =
      some (updateNameRow uuid now nm site) := by
    show (s.sites.map (updateNameRow uuid now nm)).find?
      (fun q => decide (q.site_uuid = uuid)) = _
    rw [List.find?_map]
    have hcomp : ((fun q : SiteRec => decide (q.site_uuid = uuid)) ∘
        (updateNameRow uuid now nm)) = fun q : SiteRec => decide (q.site_uuid = uuid) := by
      funext q
      show decide ((updateNameRow uuid now nm q).site_uuid = uuid) = _
      unfold updateNameRow
      split <;> rfl
    rw [hcomp]
    show (findSite s uuid).map _ = _
    rw [hfind]
    rfl
  refine ⟨?_, ?_, ?_⟩
  · unfold updateSiteByOwner
    rw [hfind]
    dsimp only
    rcases ho : normalizeHexPubkey site.owner_npub with _ | oh <;>
      rcases hc : normalizeHexPubkey (some caller) with _ | ch <;> try dsimp only
    · rw [if_pos (Or.inl (show truthyOpt none = false from rfl))]
      simp
    · rw [if_pos (Or.inl (show truthyOpt none = false from rfl))]
      simp
    · rw [if_pos (Or.inr (show truthyOpt none = false from rfl))]
      simp
    · by_cases hoh : oh = ""
      · rw [if_pos (Or.inl (show truthyOpt (some oh) = false by subst hoh; rfl))]
        constructor
        · rintro ⟨r, s2, hcon⟩
          exact absurd hcon (by simp)
        · rintro ⟨k, hk, hk1, hk2⟩
          injection hk1 with hk1
          exact absurd (hk1.symm.trans hoh) hk
      · by_cases hch : ch = ""
        · rw [if_pos (Or.inr (show truthyOpt (some ch) = false by subst hch; rfl))]
          constructor
          · rintro ⟨r, s2, hcon⟩
            exact absurd hcon (by simp)
          · rintro ⟨k, hk, hk1, hk2⟩
            injection hk2 with hk2
            exact absurd (hk2.symm.trans hch) hk
        · have h1 : truthyOpt (some oh) = true := decide_eq_true hoh
          have h2 : truthyOpt (some ch) = true := decide_eq_true hch
          have hcond1 : ¬ (truthyOpt (some oh) = false ∨ truthyOpt (some ch) = false) := by
            rintro (hcon | hcon)
            · rw [h1] at hcon
              exact absurd hcon (by decide)
            · rw [h2] at hcon
              exact absurd hcon (by decide)
          rw [if_neg hcond1]
          by_cases heq : oh = ch
          · rw [if_neg (fun hcon => hcon (by rw [heq]))]
            constructor
            · intro _
              exact ⟨oh, hoh, rfl, by rw [heq]⟩
            · intro _
              cases hnp : np <;> try dsimp only
              · exact ⟨site, s, rfl⟩
              · rw [hupdfind]
                exact ⟨_, _, rfl⟩
          · rw [if_pos (fun hcon => heq (Option.some.inj hcon))]
            constructor
            · rintro ⟨r, s2, hcon⟩
              exact absurd hcon (by simp)
            · rintro ⟨k, hk, hk1, hk2⟩
              injection hk1 with hk1
              injection hk2 with hk2
              exact absurd (hk1.trans hk2.symm) heq
  · unfold deleteSiteByOwner
    rw [hfind]
    dsimp only
    rcases ho : normalizeHexPubkey site.owner_npub with _ | oh <;>
      rcases hc : normalizeHexPubkey (some caller) with _ | ch <;> try dsimp only
    · rw [if_pos (Or.inl (show truthyOpt none = false from rfl))]
      simp
    · rw [if_pos (Or.inl (show truthyOpt none = false from rfl))]
      simp
    · rw [if_pos (Or.inr (show truthyOpt none = false from rfl))]
      simp
    · by_cases hoh : oh = ""
      · rw [if_pos (Or.inl (show truthyOpt (some oh) = false by subst hoh; rfl))]
        constructor
        · rintro ⟨r, s2, hcon⟩
          exact absurd hcon (by simp)
        · rintro ⟨k, hk, hk1, hk2⟩
          injection hk1 with hk1
          exact absurd (hk1.symm.trans hoh) hk
      · by_cases hch : ch = ""
        · rw [if_pos (Or.inr (show truthyOpt (some ch) = false by subst hch; rfl))]
          constructor
          · rintro ⟨r, s2, hcon⟩
            exact absurd hcon (by simp)
          · rintro ⟨k, hk, hk1, hk2⟩
            injection hk2 with hk2
            exact absurd (hk2.symm.trans hch) hk
        · have h1 : truthyOpt (some oh) = true := decide_eq_true hoh
          have h2 : truthyOpt (some ch) = true := decide_eq_true hch
          have hcond1 : ¬ (truthyOpt (some oh) = false ∨ truthyOpt (some ch) = false) := by
            rintro (hcon | hcon)
            · rw [h1] at hcon
              exact absurd hcon (by decide)
            · rw [h2] at hcon
              exact absurd hcon (by decide)
          rw [if_neg hcond1]
          by_cases heq : oh = ch
          · rw [if_neg (fun hcon => hcon (by rw [heq]))]
            constructor
            · intro _
              exact ⟨oh, hoh, rfl, by rw [heq]⟩
            · intro _
              exact ⟨_, _, rfl⟩
          · rw [if_pos (fun hcon => heq (Option.some.inj hcon))]
            constructor
            · rintro ⟨r, s2, hcon⟩
              exact absurd hcon (by simp)
            · rintro ⟨k, hk, hk1, hk2⟩
              injection hk1 with hk1
              injection hk2 with hk2
              exact absurd (hk1.trans hk2.symm) heq
  · unfold getSiteStats
    rw [hfind]
    dsimp only
    constructor
    · rintro ⟨res, hres⟩ htruthy
      by_contra hne
      rw [if_pos ⟨htruthy, hne⟩] at hres
      exact absurd hres (by simp)
    · intro himp
      have hcond : ¬ (truthyOpt site.owner_npub = true ∧ site.owner_npub ≠ some caller) := by
        rintro ⟨ht, hne⟩
        exact hne (himp ht)
      rw [if_neg hcond]
      exact ⟨_, rfl⟩

/-- The bech32 string whose data part is empty: a checksum-valid npub
carrying no payload words, which `normalizeHexPubkey` canonicalizes to
the empty (JS-falsy) hex string. -/
def npubEmptyKey : String := "npub106246s"

/-- Witness for C5 (amended): with the npub-encoded owner stored and the
hex caller, the normalized forms agree, so update and delete both pass
the guard; a caller identity that normalizes to the EMPTY canonical key
(the empty-payload npub) is rejected by the falsiness guard even though
normalization itself succeeds. -/
theorem c5_witness :
    (updateSiteByOwner 9 "def45678" hexZeroKey false none storeD).isOk = true ∧
    (deleteSiteByOwner "def45678" hexZeroKey storeD).isOk = true ∧
    normalizeHexPubkey (some npubEmptyKey) = some "" ∧
    updateSiteByOwner 9 "def45678" npubEmptyKey false none storeD =
      .error "Unable to validate owner pubkey" ∧
    deleteSiteByOwner "def45678" npubEmptyKey storeD =
      .error "Unable to validate owner pubkey" := by
  have h := c5_owner_guard_normalized storeD "def45678" hexZeroKey 9 false none siteD rfl
  obtain ⟨r1, s1, hok1⟩ := h.1.mpr ⟨hexZeroKey, by decide, rfl, rfl⟩
  obtain ⟨r2, s2, hok2⟩ := h.2.1.mpr ⟨hexZeroKey, by decide, rfl, rfl⟩
  rw [hok1, hok2]
  exact ⟨rfl, rfl, rfl, rfl, rfl⟩

/-! ### Site registration and owner overwrite: C6 -/

/-- A site registered with owner `ownerA`. -/
def siteE : SiteRec := ⟨1, "efg56789", none, some "ownerA", "tok5", 1, 1⟩

def storeE1 : Store := ⟨[siteE], [], [], 2⟩

theorem regE : registerSite "tok5" 1 ⟨"efg56789", none, "ownerA"⟩ emptyStore =
    .ok (siteE, storeE1) := rfl

theorem reachE1 : Reachable storeE1 := .register .empty regE

/-- The same site after a second registration with an empty owner: the
stored owner has been overwritten with the empty string. -/
def siteE2 : SiteRec := ⟨1, "efg56789", none, some "", "tok5", 1, 2⟩

def storeE2 : Store := ⟨[siteE2], [], [], 2⟩

/-- Counterexample for C6 as stated: registering the existing site again
with an empty supplied owner identity does not error and does not keep
the stored owner — the COALESCE binds the (non-NULL) empty string and
clears `ownerA`. -/
theorem c6_counterexample :
    siteE.owner_npub = some "ownerA" ∧
    registerSite "tok6" 2 ⟨"efg56789", none, ""⟩ storeE1 = .ok (siteE2, storeE2) ∧
    findSite storeE2 "efg56789" = some siteE2 ∧
    siteE2.owner_npub = some "" :=
  ⟨rfl, rfl, rfl, rfl⟩

/-- Every successful `registerSite` on an existing site rewrites the
stored owner identity of that site to the supplied one (the COALESCE
argument is a required string, never NULL). -/
theorem registerSite_existing_sets_owner (tok : String) (now : Nat) (p : RegisterParams)
    (s : Store) (site r : SiteRec) (s2 : Store)
    (hex : findSite s p.siteUuid = some site)
    (hok : registerSite tok now p s = .ok (r, s2)) :
    ∀ q ∈ s2.sites, q.site_uuid = p.siteUuid → q.owner_npub = some p.ownerNpub := by
  unfold registerSite at hok
  rw [hex] at hok
  dsimp only at hok
  split at hok
  · exact absurd hok (by simp)
  · split at hok
    · injection hok with hok
      injection hok with hr hs2
      subst hs2
      intro q hq hquuid
      obtain ⟨q0, hq0, hq0q⟩ := List.mem_map.mp hq
      subst hq0q
      unfold registerUpdateRow at hquuid ⊢
      split at hquuid
      · rename_i hc
        rw [if_pos hc]
      · rename_i hc
        exact absurd hquuid hc
    · exact absurd hok (by simp)

/-- C6 (amended): on an existing site with a non-empty stored owner, a
non-empty differing supplied owner fails with the ownership-conflict
error; a supplied owner equal to the stored one leaves the stored owner
unchanged; but a registerSite call with an EMPTY supplied owner silently
overwrites the stored owner with the empty string. -/
theorem c6_owner_overwrite_rules (tok : String) (now : Nat) (p : RegisterParams)
    (s : Store) (site : SiteRec) (stored : String)
    (hfind : findSite s p.siteUuid = some site)
    (hstored : site.owner_npub = some stored) (hne : stored ≠ "") :
    (p.ownerNpub ≠ "" ∧ p.ownerNpub ≠ stored →
      registerSite tok now p s = .error "Owner npub does not match existing site owner") ∧
    (p.ownerNpub = stored →
      ∀ r s2, registerSite tok now p s = .ok (r, s2) →
        ∀ q ∈ s2.sites, q.site_uuid = p.siteUuid → q.owner_npub = some stored) ∧
    (p.ownerNpub = "" →
      ∀ r s2, registerSite tok now p s = .ok (r, s2) →
        ∀ q ∈ s2.sites, q.site_uuid = p.siteUuid → q.owner_npub = some "") := by
  refine ⟨?_, ?_, ?_⟩
  · rintro ⟨hne1, hne2⟩
    have ht : truthyOpt site.owner_npub = true := by
      rw [hstored]
      exact decide_eq_true hne
    have hneq : site.owner_npub ≠ some p.ownerNpub := by
      rw [hstored]
      intro hcon
      injection hcon with hcon
      exact hne2 hcon.symm
    unfold registerSite
    rw [hfind]
    dsimp only
    rw [if_pos ⟨hne1, ht, hneq⟩]
  · intro heq r s2 hok q hq hquuid
    rw [registerSite_existing_sets_owner tok now p s site r s2 hfind hok q hq hquuid, heq]
  · intro heq r s2 hok q hq hquuid
    rw [registerSite_existing_sets_owner tok now p s site r s2 hfind hok q hq hquuid, heq]

/-- Witness for C6 (amended): a differing non-empty owner is rejected on
the concrete store, and re-registering with the same owner keeps it. -/
theorem c6_witness :
    registerSite "tok6" 3 ⟨"efg56789", none, "ownerB"⟩ storeE1 =
      .error "Owner npub does not match existing site owner" ∧
    siteE.owner_npub = some "ownerA" := by
  have h := c6_owner_overwrite_rules "tok6" 3 ⟨"efg56789", none, "ownerB"⟩ storeE1
    siteE "ownerA" rfl rfl (by decide)
  exact ⟨h.1 ⟨by decide, by decide⟩, rfl⟩

/-! ### Empty public identifier: C9 -/

/-- Counterexample for C9 as stated: `registerSite` with an empty
`publicId` does not fail with a validation error — it creates a site
record stored under the empty identifier. -/
theorem c9_counterexample :
    registerSite "tok7" 1 ⟨"", none, "ownerZ"⟩ emptyStore =
      .ok (⟨1, "", none, some "ownerZ", "tok7", 1, 1⟩,
        ⟨[⟨1, "", none, some "ownerZ", "tok7", 1, 1⟩], [], [], 2⟩) := rfl

/-- C9 (amended): the core performs no empty-identifier validation (the
minimum-length check lives in the transport schema).  `registerSite` with
an empty publicId succeeds and creates a site under the empty identifier;
the other core operations with an empty publicId fail, but with the
NotFound error, in any store holding no site under the empty
identifier. -/
theorem c9_empty_id_not_validated (s : Store) (tok npub caller : String) (now : Nat)
    (np : Bool) (nm name : Option String) (ow : String)
    (pp dt ua ev : Option String)
    (h : findSite s "" = none) :
    (∃ site s2, registerSite tok now ⟨"", name, ow⟩ s = .ok (site, s2) ∧
      site.site_uuid = "" ∧ s2.sites.length = s.sites.length + 1) ∧
    recordVisit now ⟨"", pp, dt, ua, ev⟩ s = .error "Site not found" ∧
    getSiteStats s "" npub = .error "Site not found" ∧
    updateSiteByOwner now "" caller np nm s = .error "Site not found" ∧
    deleteSiteByOwner "" caller s = .error "Site not found" := by
  refine ⟨?_, ?_, ?_, ?_, ?_⟩
  · unfold registerSite
    rw [h]
    dsimp only
    have hfind2 : findSite { s with
        sites := s.sites ++ [⟨s.nextSiteId, "", name, some ow, tok, now, now⟩],
        nextSiteId := s.nextSiteId + 1 } "" =
        some ⟨s.nextSiteId, "", name, some ow, tok, now, now⟩ := by
      show (s.sites ++ [(⟨s.nextSiteId, "", name, some ow, tok, now, now⟩ : SiteRec)]).find?
        (fun site => decide (site.site_uuid = "")) = _
      rw [List.find?_append]
      unfold findSite at h
      rw [h]
      rw [List.find?_cons_of_pos [] (by simp)]
      rfl
    rw [hfind2]
    refine ⟨⟨s.nextSiteId, "", name, some ow, tok, now, now⟩, _, rfl, rfl, ?_⟩
    simp
  · unfold recordVisit
    rw [h]
  · unfold getSiteStats
    rw [h]
  · unfold updateSiteByOwner
    rw [h]
  · unfold deleteSiteByOwner
    rw [h]

/-- Witness for C9 (amended) on the fresh store. -/
theorem c9_witness :
    recordVisit 1 ⟨"", none, none, none, none⟩ emptyStore = .error "Site not found" ∧
    getSiteStats emptyStore "" "npub0" = .error "Site not found" ∧
    updateSiteByOwner 1 "" "caller" false none emptyStore = .error "Site not found" ∧
    deleteSiteByOwner "" "caller" emptyStore = .error "Site not found" := by
  have h := c9_empty_id_not_validated emptyStore "tok" "npub0" "caller" 1 false none none "ow"
    none none none none rfl
  exact ⟨h.2.1, h.2.2.1, h.2.2.2.1, h.2.2.2.2⟩

/-! ### Page-path normalization: C7 -/

/-- Counterexample for C7 as stated: `mailto:test` parses as a URL with
an opaque path, so the returned path component is `test`, which does not
start with `/`. The same holds after the WHATWG input cleanup: a leading
space is stripped before scheme detection, so ` mailto:test` also yields
`test`, and interior tabs/newlines plus edge C0-controls/spaces are
removed as in `new URL`. -/
theorem c7_counterexample :
    normalizePagePath (some "mailto:test") = "test" ∧
    startsWithSlash "test" = false ∧
    normalizePagePath (some " mailto:test") = "test" ∧
    hasOpaquePathOpt (some " mailto:test") = true ∧
    normalizePagePath (some "\t/a\nb ") = "/ab" :=
  ⟨rfl, rfl, rfl, rfl, rfl⟩

theorem takeUntilQF_cons_slash (l : List Char) :
    takeUntilQF ('/' :: l) = '/' :: takeUntilQF l := rfl

theorem dropWhile_shape {α : Type} (p : α → Bool) :
    ∀ l : List α, l.dropWhile p = [] ∨ ∃ c t, l.dropWhile p = c :: t ∧ p c = false := by
  intro l
  induction l with
  | nil => exact Or.inl rfl
  | cons a l ih =>
    rw [List.dropWhile_cons]
    split
    · exact ih
    · rename_i hpa
      exact Or.inr ⟨a, l, rfl, by simpa using hpa⟩

theorem specialPathname_slash (r : List Char)
    (h : r = [] ∨ ∃ c t, r = c :: t ∧ isAuthEnd c = true) :
    (specialPathname r).head? = some '/' := by
  rcases h with h | ⟨c, t, hr, hc⟩
  · subst h
    rfl
  · subst hr
    have hcases : ((c = '/' ∨ c = '\\') ∨ c = '?') ∨ c = '#' := by
      simpa [isAuthEnd] using hc
    rcases hcases with ((h1 | h1) | h1) | h1 <;> subst h1 <;>
      unfold specialPathname <;> rw [List.map_cons]
    · rw [show bsToSlash '/' = '/' from rfl, takeUntilQF_cons_slash]
      rfl
    · rw [show bsToSlash '\\' = '/' from rfl, takeUntilQF_cons_slash]
      rfl
    · rw [show bsToSlash '?' = '?' from rfl,
        show takeUntilQF ('?' :: (t.map bsToSlash)) = [] from rfl]
      rfl
    · rw [show bsToSlash '#' = '#' from rfl,
        show takeUntilQF ('#' :: (t.map bsToSlash)) = [] from rfl]
      rfl

theorem parseAbsoluteSpecial_slash (rest pn : List Char)
    (h : parseAbsoluteSpecial rest = some pn) : pn.head? = some '/' := by
  unfold parseAbsoluteSpecial at h
  dsimp only at h
  split at h
  · injection h with h
    rw [← h]
    apply specialPathname_slash
    rcases dropWhile_shape (fun c => !isAuthEnd c) (rest.dropWhile isSlashy) with hsh | ⟨c, t, hsh, hc⟩
    · exact Or.inl hsh
    · exact Or.inr ⟨c, t, hsh, by simpa using hc⟩
  · exact absurd h (by simp)

theorem parseRelativeSpecial_slash (l pn : List Char)
    (h : parseRelativeSpecial l = some pn) : pn.head? = some '/' := by
  unfold parseRelativeSpecial at h
  dsimp only at h
  split at h
  · injection h with h
    rw [← h]
    rfl
  · exact parseAbsoluteSpecial_slash _ pn h
  · injection h with h
    rw [← h]
    rfl
  · injection h with h
    rw [← h]
    rfl
  · injection h with h
    rw [← h]
    rfl
  · injection h with h
    rw [← h]
    rfl

theorem parseNonSpecial_auth (r pn : List Char)
    (h : parseNonSpecial ('/' :: '/' :: r) = some pn) :
    pn = [] ∨ pn.head? = some '/' := by
  unfold parseNonSpecial at h
  try dsimp only at h
  injection h with h
  rcases dropWhile_shape (fun c => !(c = '/' || c = '?' || c = '#')) r with hsh | ⟨c, t, hsh, hc⟩
  · rw [← h, hsh]
    exact Or.inl rfl
  · have hcases : (c = '/' ∨ c = '?') ∨ c = '#' := by
      have himp : ¬c = '/' → ¬c = '?' → c = '#' := by simpa using hc
      by_cases h1 : c = '/'
      · exact Or.inl (Or.inl h1)
      · by_cases h2 : c = '?'
        · exact Or.inl (Or.inr h2)
        · exact Or.inr (himp h1 h2)
    rcases hcases with (h1 | h1) | h1 <;> subst h1 <;> rw [← h, hsh]
    · rw [takeUntilQF_cons_slash]
      exact Or.inr rfl
    · exact Or.inl rfl
    · exact Or.inl rfl

theorem urlPathname_slash (p : String) (b : Bool) (pn : String)
    (hop : hasOpaquePath p = false) (h : urlPathname p b = some pn) :
    pn = "" ∨ startsWithSlash pn = true := by
  unfold urlPathname at h
  unfold hasOpaquePath at hop
  rcases hs : schemeSplit (urlCleanInput p.toList) with _ | pair <;> rw [hs] at h hop <;>
    try dsimp only at h hop
  · split at h
    · rcases hr : parseRelativeSpecial (urlCleanInput p.toList) with _ | l <;> rw [hr] at h <;>
        try dsimp only at h
      · exact absurd h (by simp)
      · injection h with h
        right
        rw [← h]
        exact decide_eq_true (parseRelativeSpecial_slash (urlCleanInput p.toList) l hr)
    · exact absurd h (by simp)
  · obtain ⟨scheme, rest⟩ := pair
    dsimp only at h hop
    split at h
    · rename_i hspec
      rw [if_pos hspec] at hop
      split at h
      · rcases hr : parseRelativeSpecial rest with _ | l <;> rw [hr] at h <;> try dsimp only at h
        · exact absurd h (by simp)
        · injection h with h
          right
          rw [← h]
          exact decide_eq_true (parseRelativeSpecial_slash rest l hr)
      · rcases hr : parseAbsoluteSpecial rest with _ | l <;> rw [hr] at h <;> try dsimp only at h
        · exact absurd h (by simp)
        · injection h with h
          right
          rw [← h]
          exact decide_eq_true (parseAbsoluteSpecial_slash rest l hr)
    · rename_i hspec
      rw [if_neg hspec] at hop
      split at hop
      · rename_i r
        rcases hr : parseNonSpecial ('/' :: '/' :: r) with _ | l <;> rw [hr] at h <;> try dsimp only at h
        · exact absurd h (by simp)
        · injection h with h
          rcases parseNonSpecial_auth r l hr with hl | hl
          · left
            rw [← h, hl]
            rfl
          · right
            rw [← h]
            exact decide_eq_true hl
      · exact absurd hop (by simp)

/-- A string with a literal `/` prefix begins with the slash character. -/
theorem startsWithSlash_of_prefix (q : String) (hsw : strStartsWith q "/" = true) :
    startsWithSlash q = true := by
  unfold strStartsWith at hsw
  unfold startsWithSlash
  cases hql : q.toList with
  | nil =>
    rw [hql] at hsw
    exact absurd hsw (by decide)
  | cons c t =>
    rw [hql] at hsw
    have hc : c = '/' := by
      have hb : ('/' == c) = true := by
        simpa [List.isPrefixOf] using hsw
      exact (eq_of_beq hb).symm
    rw [hc]
    rfl

/-- Appending a string to `/` yields a string beginning with the slash
character. -/
theorem startsWithSlash_append (q : String) : startsWithSlash ("/" ++ q) = true := rfl

/-- C7 (amended): `normalizePagePath` is total, maps empty or missing
input to `/`, never returns the empty string, and returns a string
starting with `/` for every input except one that parses as a URL with an
opaque path (a non-special scheme without `//`, e.g. `mailto:test`),
whose opaque path is returned verbatim. -/
theorem c7_normalize_page_path_amended (p : Option String) :
    normalizePagePath none = "/" ∧
    normalizePagePath (some "") = "/" ∧
    normalizePagePath p ≠ "" ∧
    (hasOpaquePathOpt p = false → startsWithSlash (normalizePagePath p) = true) := by
  refine ⟨rfl, rfl, ?_, ?_⟩
  · match p with
    | none => simp [normalizePagePath]
    | some q =>
      unfold normalizePagePath
      dsimp only
      by_cases hq : q = ""
      · rw [if_pos hq]
        simp
      · rw [if_neg hq]
        rcases hu : (if strStartsWith q "http" then urlPathname q false else urlPathname q true)
          with _ | pn <;> try dsimp only
        · split
          · exact hq
          · intro hcon
            have hdata := congrArg String.data hcon
            rw [show ("/" ++ q).data = '/' :: q.data from rfl] at hdata
            exact absurd hdata (by simp)
        · split
          · simp
          · rename_i hpn
            exact hpn
  · match p with
    | none =>
      intro _
      rfl
    | some q =>
      intro hop
      unfold normalizePagePath
      dsimp only
      by_cases hq : q = ""
      · rw [if_pos hq]
        rfl
      · rw [if_neg hq]
        by_cases hhttp : strStartsWith q "http" = true <;>
          [rw [if_pos hhttp]; rw [if_neg hhttp]] <;>
          [rcases hu : urlPathname q false with _ | pn;
            rcases hu : urlPathname q true with _ | pn] <;> try dsimp only
        · split
          · rename_i hsw
            exact startsWithSlash_of_prefix q hsw
          · exact startsWithSlash_append q
        · split
          · rfl
          · rename_i hpn
            rcases urlPathname_slash q false pn hop hu with hl | hl
            · exact absurd hl hpn
            · exact hl
        · split
          · rename_i hsw
            exact startsWithSlash_of_prefix q hsw
          · exact startsWithSlash_append q
        · split
          · rfl
          · rename_i hpn
            rcases urlPathname_slash q true pn hop hu with hl | hl
            · exact absurd hl hpn
            · exact hl

/-- Witness for C7 (amended) on a relative page path. -/
theorem c7_witness :
    startsWithSlash (normalizePagePath (some "blog/post")) = true ∧
    normalizePagePath (some "blog/post") = "/blog/post" :=
  ⟨(c7_normalize_page_path_amended (some "blog/post")).2.2.2 rfl, rfl⟩

/-! ### Per-page lastSeen in getSiteStats: C8 -/

/-- A site with a tablet visit at time 2 and a desktop visit at time 3 on
the same page. -/
def siteF : SiteRec := ⟨1, "fgh67890", none, some "ownerF", "tok8", 1, 1⟩

def storeF1 : Store := ⟨[siteF], [], [], 2⟩

def storeF2 : Store :=
  ⟨[siteF], [⟨1, "/p", .tablet, none, 2⟩], [⟨1, "/p", .tablet, 1, 2⟩], 2⟩

def storeF : Store :=
  ⟨[siteF], [⟨1, "/p", .tablet, none, 2⟩, ⟨1, "/p", .desktop, none, 3⟩],
    [⟨1, "/p", .tablet, 1, 2⟩, ⟨1, "/p", .desktop, 1, 3⟩], 2⟩

theorem regF : registerSite "tok8" 1 ⟨"fgh67890", none, "ownerF"⟩ emptyStore =
    .ok (siteF, storeF1) := rfl

theorem visF1 : recordVisit 2 ⟨"fgh67890", some "/p", some "tablet", none, none⟩ storeF1 =
    .ok (⟨"fgh67890", "/p", .tablet, 1, some 2⟩, storeF2) := rfl

theorem visF2 : recordVisit 3 ⟨"fgh67890", some "/p", some "desktop", none, none⟩ storeF2 =
    .ok (⟨"fgh67890", "/p", .desktop, 1, some 3⟩, storeF) := rfl

theorem reachF : Reachable storeF := .visit (.visit (.register .empty regF) visF1) visF2

/-- Counterexample for C8 as stated: the page `/p` has rows with
last-seen times 2 (tablet) and 3 (desktop), so the maximum is 3, but the
reported per-page `lastSeen` is 2 — the loop overwrites `lastSeen` with
each row in `(page_path, device_type)` order, so the lexicographically
last device wins, not the largest timestamp. -/
theorem c8_counterexample :
    getSiteStats storeF "fgh67890" "ownerF" =
      .ok ⟨"fgh67890", none, some "ownerF", 2, 1, [⟨"/p", 2, 1, 0, 1, 0, some 2⟩]⟩ ∧
    ((storeF.page_stats.filter (fun ps => decide (ps.page_path = "/p"))).map
      PageStatRec.last_seen).maximum = some 3 ∧
    some (2 : Nat) ≠ some (3 : Nat) :=
  ⟨rfl, by decide, by decide⟩

theorem setDevice_page (e : PageStatsEntry) (d : DeviceType) (n : Nat) :
    (setDevice e d n).page = e.page := by
  cases d <;> rfl

theorem setDevice_lastSeen (e : PageStatsEntry) (d : DeviceType) (n : Nat) :
    (setDevice e d n).lastSeen = e.lastSeen := by
  cases d <;> rfl

theorem mapGet_page (m : List PageStatsEntry) (k : String) (e : PageStatsEntry)
    (h : mapGet m k = some e) : e.page = k := by
  have := List.find?_some h
  simpa using this

/-- The grouping loop writes, for each row, an entry keyed by the row's
page whose `lastSeen` is that row's `last_seen`. -/
theorem applyRow_entry (acc : List PageStatsEntry × Nat) (row : PageStatRec) :
    ∃ e2, (applyRow acc row).1 = mapSet acc.1 e2 ∧ e2.page = row.page_path ∧
      e2.lastSeen = some row.last_seen := by
  unfold applyRow
  dsimp only
  rcases hg : mapGet acc.1 row.page_path with _ | e <;> dsimp only
  · refine ⟨_, rfl, ?_, ?_⟩
    · rw [setDevice_page]
    · rw [setDevice_lastSeen]
  · refine ⟨_, rfl, ?_, ?_⟩
    · rw [setDevice_page]
      exact mapGet_page acc.1 row.page_path e hg
    · rw [setDevice_lastSeen]

theorem mapGet_mapSet_ne (m : List PageStatsEntry) (e : PageStatsEntry) (k : String)
    (hne : e.page ≠ k) : mapGet (mapSet m e) k = mapGet m k := by
  unfold mapSet
  split
  · unfold mapGet
    rw [List.find?_map]
    have hcomp : ((fun x : PageStatsEntry => decide (x.page = k)) ∘
        (fun x => if x.page = e.page then e else x)) =
        fun x : PageStatsEntry => decide (x.page = k) := by
      funext x
      show decide ((if x.page = e.page then e else x).page = k) = decide (x.page = k)
      by_cases hx : x.page = e.page
      · rw [if_pos hx, hx]
      · rw [if_neg hx]
    rw [hcomp]
    rcases hf : m.find? (fun x => decide (x.page = k)) with _ | x
    · rw [hf]
      rfl
    · rw [hf]
      have hx := List.find?_some hf
      simp only [decide_eq_true_eq] at hx
      simp only [Option.map_some']
      rw [if_neg]
      intro hcon
      exact hne (by rw [← hcon, hx])
  · unfold mapGet
    rw [List.find?_append]
    have hone : List.find? (fun x : PageStatsEntry => decide (x.page = k)) [e] = none := by
      rw [List.find?_cons_of_neg [] (by simpa using hne)]
      rfl
    rw [hone]
    cases m.find? (fun x : PageStatsEntry => decide (x.page = k)) <;> rfl

theorem mapGet_mapSet_self (m : List PageStatsEntry) (e : PageStatsEntry) :
    mapGet (mapSet m e) e.page = some e := by
  unfold mapSet
  split
  · rename_i hany
    unfold mapGet
    rw [List.find?_map]
    have hcomp : ((fun x : PageStatsEntry => decide (x.page = e.page)) ∘
        (fun x => if x.page = e.page then e else x)) =
        fun x : PageStatsEntry => decide (x.page = e.page) := by
      funext x
      show decide ((if x.page = e.page then e else x).page = e.page) =
        decide (x.page = e.page)
      by_cases hx : x.page = e.page
      · rw [if_pos hx, hx]
      · rw [if_neg hx]
    rw [hcomp]
    rcases hf : m.find? (fun x => decide (x.page = e.page)) with _ | x
    · rw [List.find?_eq_none] at hf
      rw [List.any_eq_true] at hany
      obtain ⟨x, hx, hpx⟩ := hany
      exact absurd hpx (hf x hx)
    · rw [hf]
      have hx := List.find?_some hf
      simp only [decide_eq_true_eq] at hx
      simp only [Option.map_some']
      rw [if_pos hx]
  · rename_i hany
    unfold mapGet
    rw [List.find?_append]
    have hnone : m.find? (fun x : PageStatsEntry => decide (x.page = e.page)) = none := by
      rw [List.find?_eq_none]
      intro x hx hcon
      exact hany (List.any_eq_true.mpr ⟨x, hx, hcon⟩)
    rw [hnone, List.find?_cons_of_pos [] (by simp)]
    rfl

/-- The page map built by the grouping loop stores one entry per key:
looking up any member's page finds that member. -/
def goodMap (m : List PageStatsEntry) : Prop :=
  ∀ e ∈ m, mapGet m e.page = some e

theorem goodMap_mapSet (m : List PageStatsEntry) (e : PageStatsEntry)
    (hg : goodMap m) : goodMap (mapSet m e) := by
  intro x hx
  by_cases hany : m.any (fun q => decide (q.page = e.page)) = true
  · unfold mapSet at hx
    rw [if_pos hany] at hx
    obtain ⟨y, hy, hyx⟩ := List.mem_map.mp hx
    by_cases hyp : y.page = e.page
    · have hx2 : x = e := by rw [← hyx, if_pos hyp]
      rw [hx2]
      exact mapGet_mapSet_self m e
    · have hx2 : x = y := by rw [← hyx, if_neg hyp]
      rw [hx2]
      rw [mapGet_mapSet_ne m e y.page (fun hcon => hyp hcon.symm)]
      exact hg y hy
  · unfold mapSet at hx
    rw [if_neg hany] at hx
    rcases List.mem_append.mp hx with hold | hnew
    · have hxp : x.page ≠ e.page :=
        fun hcon => hany (List.any_eq_true.mpr ⟨x, hold, by simp [hcon]⟩)
      rw [mapGet_mapSet_ne m e x.page (fun hcon => hxp hcon.symm)]
      exact hg x hold
    · simp only [List.mem_singleton] at hnew
      rw [hnew]
      exact mapGet_mapSet_self m e

theorem goodMap_fold (rows : List PageStatRec) :
    ∀ acc : List PageStatsEntry × Nat, goodMap acc.1 →
      goodMap ((rows.foldl applyRow acc).1) := by
  induction rows with
  | nil => exact fun acc h => h
  | cons r rows ih =>
    intro acc hg
    rw [List.foldl_cons]
    apply ih
    obtain ⟨e2, h1, _, _⟩ := applyRow_entry acc r
    rw [h1]
    exact goodMap_mapSet acc.1 e2 hg

theorem foldl_applyRow_absent (k : String) (rows : List PageStatRec) :
    ∀ acc : List PageStatsEntry × Nat, (∀ r ∈ rows, r.page_path ≠ k) →
      mapGet ((rows.foldl applyRow acc).1) k = mapGet acc.1 k := by
  induction rows with
  | nil => exact fun acc _ => rfl
  | cons r rows ih =>
    intro acc hne
    rw [List.foldl_cons,
      ih (applyRow acc r) (fun x hx => hne x (List.mem_cons_of_mem r hx))]
    obtain ⟨e2, h1, hpage, _⟩ := applyRow_entry acc r
    rw [h1]
    apply mapGet_mapSet_ne
    rw [hpage]
    exact hne r (List.mem_cons_self r rows)

theorem foldl_applyRow_lastSeen (k : String) (rows : List PageStatRec) :
    ∀ (acc : List PageStatsEntry × Nat) (e : PageStatsEntry),
      (rows.filter (fun r => decide (r.page_path = k))) ≠ [] →
      mapGet ((rows.foldl applyRow acc).1) k = some e →
      ∃ r, (rows.filter (fun r => decide (r.page_path = k))).getLast? = some r ∧
        e.lastSeen = some r.last_seen := by
  induction rows with
  | nil => exact fun acc e hne _ => absurd rfl hne
  | cons r rows ih =>
    intro acc e hne hget
    rw [List.foldl_cons] at hget
    by_cases hrk : r.page_path = k
    · have hfilter : (r :: rows).filter (fun q => decide (q.page_path = k)) =
          r :: rows.filter (fun q => decide (q.page_path = k)) := by
        rw [List.filter_cons_of_pos]
        simp [hrk]
      by_cases hrest : rows.filter (fun q => decide (q.page_path = k)) = []
      · have habsent : ∀ x ∈ rows, x.page_path ≠ k := by
          intro x hx hcon
          have hmem : x ∈ rows.filter (fun q => decide (q.page_path = k)) :=
            List.mem_filter.mpr ⟨hx, by simp [hcon]⟩
          rw [hrest] at hmem
          exact absurd hmem (List.not_mem_nil x)
        rw [foldl_applyRow_absent k rows _ habsent] at hget
        obtain ⟨e2, h1, hpage, hlast⟩ := applyRow_entry acc r
        rw [h1, show k = e2.page from (hpage.trans hrk).symm, mapGet_mapSet_self] at hget
        injection hget with hget
        refine ⟨r, ?_, ?_⟩
        · rw [hfilter, hrest]
          rfl
        · rw [← hget, hlast]
      · obtain ⟨r2, hlast2, hsl⟩ := ih (applyRow acc r) e hrest hget
        refine ⟨r2, ?_, hsl⟩
        rw [hfilter]
        rcases hl : rows.filter (fun q => decide (q.page_path = k)) with _ | ⟨a, l⟩
        · exact absurd hl hrest
        · rw [hl] at hlast2
          rw [hl, List.getLast?_cons_cons]
          exact hlast2
    · have hfilter : (r :: rows).filter (fun q => decide (q.page_path = k)) =
          rows.filter (fun q => decide (q.page_path = k)) := by
        rw [List.filter_cons_of_neg]
        simp [hrk]
      rw [hfilter] at hne ⊢
      exact ih (applyRow acc r) e hne hget

/-- C8 (amended): each per-page entry of the `getSiteStats` result
carries the `last_seen` of the LAST row of that page in the
`(page_path, device_type)` iteration order — i.e. the row of the
lexicographically greatest device-type string — not the maximum of the
page's last-seen timestamps. -/
theorem c8_last_seen_is_last_row (s : Store) (uuid npub : String) (site : SiteRec)
    (res : SiteStats) (entry : PageStatsEntry)
    (hfind : findSite s uuid = some site)
    (hres : getSiteStats s uuid npub = .ok res)
    (hentry : entry ∈ res.pages) :
    ∃ r, ((sortRows (s.page_stats.filter (fun ps => decide (ps.site_id = site.id)))).filter
        (fun row => decide (row.page_path = entry.page))).getLast? = some r ∧
      entry.lastSeen = some r.last_seen := by
  unfold getSiteStats at hres
  rw [hfind] at hres
  dsimp only at hres
  split at hres
  · exact absurd hres (by simp)
  · injection hres with hres
    have hpages : res.pages =
        ((sortRows (s.page_stats.filter (fun ps => decide (ps.site_id = site.id)))).foldl
          applyRow ([], 0)).1 := by
      rw [← hres]
    rw [hpages] at hentry
    have hget := goodMap_fold
      (sortRows (s.page_stats.filter (fun ps => decide (ps.site_id = site.id))))
      ([], 0) (fun e he => absurd he (List.not_mem_nil e)) entry hentry
    by_cases hf : ((sortRows (s.page_stats.filter
        (fun ps => decide (ps.site_id = site.id)))).filter
          (fun row => decide (row.page_path = entry.page))) = []
    · have habsent : ∀ x ∈ sortRows (s.page_stats.filter
          (fun ps => decide (ps.site_id = site.id))), x.page_path ≠ entry.page := by
        intro x hx hcon
        have hmem : x ∈ (sortRows (s.page_stats.filter
            (fun ps => decide (ps.site_id = site.id)))).filter
              (fun row => decide (row.page_path = entry.page)) :=
          List.mem_filter.mpr ⟨hx, by simp [hcon]⟩
        rw [hf] at hmem
        exact absurd hmem (List.not_mem_nil x)
      rw [foldl_applyRow_absent entry.page _ _ habsent] at hget
      exact absurd hget (by simp [mapGet])
    · exact foldl_applyRow_lastSeen entry.page
        (sortRows (s.page_stats.filter (fun ps => decide (ps.site_id = site.id))))
        ([], 0) entry hf hget

/-- Witness for C8 (amended) on the concrete store: the `/p` entry's
lastSeen (2) is the last-seen of the final row in device order (tablet,
time 2), even though the desktop row is newer. -/
theorem c8_witness :
    ∃ r, ((sortRows (storeF.page_stats.filter (fun ps => decide (ps.site_id = siteF.id)))).filter
        (fun row => decide (row.page_path =
          (⟨"/p", 2, 1, 0, 1, 0, some 2⟩ : PageStatsEntry).page))).getLast? = some r ∧
      (⟨"/p", 2, 1, 0, 1, 0, some 2⟩ : PageStatsEntry).lastSeen = some r.last_seen := by
  exact c8_last_seen_is_last_row storeF "fgh67890" "ownerF" siteF
    ⟨"fgh67890", none, some "ownerF", 2, 1, [⟨"/p", 2, 1, 0, 1, 0, some 2⟩]⟩
    ⟨"/p", 2, 1, 0, 1, 0, some 2⟩ rfl rfl (by decide)

end Nanalytics
